import Mathlib

/-!
Verification of the project/job/item mutation protocol of the ProjectClad
storefront extension.

The definitions below are a shallow embedding of the route-handler logic:
the relational store (Prisma/SQLite) is modelled as an explicit record of
row lists, each mutating route handler becomes a pure function from a
database state (plus an environment for the external capabilities:
customer directory, e-mail dispatch, id generation) to a result and a new
database state.  Decimal price snapshots are carried as opaque integers
(they are only ever copied, never computed with), and generated cuids are
supplied by an id stream.  E-mail subject/body text is abstracted to the
recipient list: message contents are presentation, out of the mutation
protocol.
-/

namespace ProjectClad

/-- One line of an incoming cart payload (variantId, quantity, priceSnapshot). -/
structure CartLine where
  variantId : String
  quantity : Int
  priceSnapshot : Int
  deriving DecidableEq, Repr

/-- A JobItem row. -/
structure JobItem where
  id : String
  jobId : String
  variantId : String
  quantity : Int
  priceSnapshot : Int
  sortOrder : Nat
  deriving DecidableEq, Repr

/-- A Job ("order") row. -/
structure Job where
  id : String
  projectId : String
  name : String
  isLocked : Bool
  sortOrder : Nat
  deriving DecidableEq, Repr

/-- A ProjectMember row (role is "edit" or "view"). -/
structure ProjectMember where
  projectId : String
  customerId : String
  role : String
  deriving DecidableEq, Repr

/-- A Project row. -/
structure Project where
  id : String
  shop : String
  name : String
  ownerCustomerId : String
  poNumber : String
  companyName : String
  deriving DecidableEq, Repr

/-- An ApprovalRequest row; jobId/itemId are empty-string sentinels for
project- and job-wide scopes, unique on (projectId, jobId, itemId). -/
structure ApprovalRequest where
  projectId : String
  jobId : String
  itemId : String
  requestedAt : Nat
  approvedAt : Option Nat
  approvedByCustomerId : Option String
  deriving DecidableEq, Repr

/-- The relational store; orderLinks is the set of jobIds holding a
JobOrderLink row (its other columns are irrelevant to the core). -/
structure DB where
  projects : List Project
  jobs : List Job
  items : List JobItem
  members : List ProjectMember
  orderLinks : List String
  approvals : List ApprovalRequest
  deriving DecidableEq, Repr

/-- Whitespace trim (the JS String.prototype.trim), written structurally
over the character list so that concrete evaluation reduces. -/
def strTrim (s : String) : String :=
  String.mk (((s.data.dropWhile Char.isWhitespace).reverse.dropWhile
    Char.isWhitespace).reverse)

/-- Lower-casing (the JS toLowerCase), written over the character list. -/
def strLower (s : String) : String := String.mk (s.data.map Char.toLower)

/-- Upper-casing (the JS toUpperCase), written over the character list. -/
def strUpper (s : String) : String := String.mk (s.data.map Char.toUpper)

/-- The items filter of normalizeItems: present variantId and quantity > 0. -/
def normalizeItems (items : List CartLine) : List CartLine :=
  items.filter (fun item => item.variantId != "" && decide (0 < item.quantity))

/-- Project lookup by (id, shop) only, as in the app-proxy loader. -/
def findProject (db : DB) (projectId shop : String) : Option Project :=
  db.projects.find? (fun p => p.id == projectId && p.shop == shop)

/-- Whether the customer is the owner or has a ProjectMember row. -/
def isMemberOf (db : DB) (p : Project) (customerId : String) : Bool :=
  p.ownerCustomerId == customerId ||
    db.members.any (fun m => m.projectId == p.id && m.customerId == customerId)

/-- Project lookup with the owner-or-member OR clause of the save-cart route. -/
def findProjectAsMember (db : DB) (projectId shop customerId : String) :
    Option Project :=
  db.projects.find? (fun p =>
    p.id == projectId && p.shop == shop && isMemberOf db p customerId)

/-- The role on the ProjectMember row of (projectId, customerId), if any. -/
def memberRole (db : DB) (projectId customerId : String) : Option String :=
  (db.members.find? (fun m =>
    m.projectId == projectId && m.customerId == customerId)).map (fun m => m.role)

/-- The canEdit evaluation: owner, or member with role "edit". -/
def canEdit (db : DB) (p : Project) (customerId : String) : Bool :=
  p.ownerCustomerId == customerId || memberRole db p.id customerId == some "edit"

/-- The items of one job, in storage order. -/
def itemsOf (db : DB) (jobId : String) : List JobItem :=
  db.items.filter (fun it => it.jobId == jobId)

/-- The jobs of one project, in storage order. -/
def jobsOf (db : DB) (projectId : String) : List Job :=
  db.jobs.filter (fun j => j.projectId == projectId)

/-- getNextSortOrder: max item sortOrder in the job (0 if none) + 1. -/
def getNextSortOrder (db : DB) (jobId : String) : Nat :=
  ((itemsOf db jobId).map (fun it => it.sortOrder)).foldl max 0 + 1

/-- getNextJobSortOrder: max job sortOrder in the project (0 if none) + 1. -/
def getNextJobSortOrder (db : DB) (projectId : String) : Nat :=
  ((jobsOf db projectId).map (fun j => j.sortOrder)).foldl max 0 + 1

/-- Job lookup by (id, projectId). -/
def findJob (db : DB) (jobId projectId : String) : Option Job :=
  db.jobs.find? (fun j => j.id == jobId && j.projectId == projectId)

/-- The lock test: explicit isLocked flag or an existing JobOrderLink. -/
def jobIsLocked (db : DB) (j : Job) : Bool :=
  j.isLocked || db.orderLinks.contains j.id

/-- Overwrite a project's poNumber/companyName (last-write-wins). -/
def setProjectPoCompany (db : DB) (projectId poNumber companyName : String) : DB :=
  { db with projects := db.projects.map (fun p =>
      if p.id == projectId then
        { p with poNumber := poNumber, companyName := companyName }
      else p) }

/-- Duplicate a list of items into a new job, preserving variantId,
quantity, priceSnapshot and sortOrder, with fresh ids from the stream. -/
def dupItemsFor (items : List JobItem) (newJobId : String) (gen : Nat → String)
    (genIdx : Nat) : List JobItem :=
  items.enum.map (fun pr =>
    { id := gen (genIdx + pr.1), jobId := newJobId, variantId := pr.2.variantId,
      quantity := pr.2.quantity, priceSnapshot := pr.2.priceSnapshot,
      sortOrder := pr.2.sortOrder })

/-- The replace quantity mode: delete the target job's items and recreate
exactly the incoming lines, renumbered 1..n, in one transaction. -/
def applyReplace (db : DB) (targetJobId : String) (lines : List CartLine)
    (gen : Nat → String) (genIdx : Nat) : DB :=
  { db with items :=
      db.items.filter (fun it => it.jobId != targetJobId) ++
        lines.enum.map (fun pr =>
          { id := gen (genIdx + pr.1), jobId := targetJobId,
            variantId := pr.2.variantId, quantity := pr.2.quantity,
            priceSnapshot := pr.2.priceSnapshot, sortOrder := pr.1 + 1 }) }

/-- Point update of one item row (by unique id): set quantity and priceSnapshot. -/
def updateItemRow (db : DB) (itemId : String) (quantity priceSnapshot : Int) : DB :=
  { db with items := db.items.map (fun it =>
      if it.id == itemId then
        { it with quantity := quantity, priceSnapshot := priceSnapshot }
      else it) }

/-- The add quantity mode loop: per line, merge into an existing row with
the same variantId (increment quantity, overwrite priceSnapshot) or append
a new row at the running next sortOrder. -/
def applyAdd (db : DB) (targetJobId : String) (lines : List CartLine)
    (nextSortOrder : Nat) (gen : Nat → String) (genIdx : Nat) : DB :=
  match lines with
  | [] => db
  | line :: rest =>
    match db.items.find? (fun it =>
        it.jobId == targetJobId && it.variantId == line.variantId) with
    | some existing =>
      applyAdd (updateItemRow db existing.id (existing.quantity + line.quantity)
        line.priceSnapshot) targetJobId rest nextSortOrder gen genIdx
    | none =>
      applyAdd
        { db with items := db.items ++
            [{ id := gen genIdx, jobId := targetJobId, variantId := line.variantId,
               quantity := line.quantity, priceSnapshot := line.priceSnapshot,
               sortOrder := nextSortOrder }] }
        targetJobId rest (nextSortOrder + 1) gen (genIdx + 1)

/-- deleteMany of ApprovalRequest rows at the job-level scope
(projectId, jobId, itemId = ""). -/
def deleteJobLevelApprovals (db : DB) (projectId jobId : String) : DB :=
  { db with approvals := db.approvals.filter (fun a =>
      !(a.projectId == projectId && a.jobId == jobId && a.itemId == "")) }

/-- Result of the save-cart action (HTTP bodies reduced to their kind). -/
inductive SaveResult where
  | validationError (msg : String)
  | notFound (msg : String)
  | forbidden
  | ok (projectId : String) (jobId : String) (copied : Option Bool)
  | unsupportedMode
  deriving DecidableEq, Repr

/-- The save-cart request payload; absent JSON fields are empty strings,
matching the JS falsiness checks. -/
structure SavePayload where
  mode : String
  poNumber : String
  companyName : String
  projectName : String
  jobName : String
  projectId : String
  jobId : String
  quantityMode : String
  items : List CartLine
  deriving Repr

/-- The save-cart action (api.save-job route): validation, the three modes,
copy-on-write for locked jobs, the two quantity modes, and the job-level
approval-request invalidation.  gen is the cuid stream for created rows. -/
def saveCart (db : DB) (shop customerId : String) (payload : SavePayload)
    (gen : Nat → String) : SaveResult × DB :=
  let items := normalizeItems payload.items
  let poNumber := strTrim payload.poNumber
  let companyName := strTrim payload.companyName
  if items.isEmpty then (.validationError "Cart has no items.", db)
  else if poNumber == "" then (.validationError "PO number is required.", db)
  else if companyName == "" then (.validationError "Company name is required.", db)
  else if payload.mode == "newProject" then
    if payload.projectName == "" || payload.jobName == "" then
      (.validationError "Project name and order name are required.", db)
    else
      let projectId := gen 0
      let jobId := gen 1
      let project : Project :=
        { id := projectId, shop := shop, name := payload.projectName,
          ownerCustomerId := customerId, poNumber := poNumber,
          companyName := companyName }
      let ownerMember : ProjectMember :=
        { projectId := projectId, customerId := customerId, role := "edit" }
      let job : Job :=
        { id := jobId, projectId := projectId, name := payload.jobName,
          isLocked := false, sortOrder := 1 }
      let newItems : List JobItem := items.enum.map (fun pr =>
        { id := gen (2 + pr.1), jobId := jobId, variantId := pr.2.variantId,
          quantity := pr.2.quantity, priceSnapshot := pr.2.priceSnapshot,
          sortOrder := pr.1 + 1 })
      (.ok projectId jobId none,
        { db with projects := db.projects ++ [project],
                  members := db.members ++ [ownerMember],
                  jobs := db.jobs ++ [job],
                  items := db.items ++ newItems })
  else if payload.mode == "existingProject" then
    if payload.projectId == "" || payload.jobName == "" then
      (.validationError "Select a project and order name.", db)
    else
      match findProjectAsMember db payload.projectId shop customerId with
      | none => (.notFound "Project not found.", db)
      | some project =>
        if !(canEdit db project customerId) then (.forbidden, db)
        else
          let nextJobSortOrder := getNextJobSortOrder db project.id
          let jobId := gen 0
          let job : Job :=
            { id := jobId, projectId := project.id, name := payload.jobName,
              isLocked := false, sortOrder := nextJobSortOrder }
          let newItems : List JobItem := items.enum.map (fun pr =>
            { id := gen (1 + pr.1), jobId := jobId, variantId := pr.2.variantId,
              quantity := pr.2.quantity, priceSnapshot := pr.2.priceSnapshot,
              sortOrder := pr.1 + 1 })
          let db1 : DB :=
            { db with jobs := db.jobs ++ [job], items := db.items ++ newItems }
          (.ok project.id jobId none,
            setProjectPoCompany db1 project.id poNumber companyName)
  else if payload.mode == "existingJob" then
    if payload.projectId == "" || payload.jobId == "" then
      (.validationError "Select a project and order.", db)
    else
      match findProjectAsMember db payload.projectId shop customerId with
      | none => (.notFound "Project not found.", db)
      | some project =>
        if !(canEdit db project customerId) then (.forbidden, db)
        else
          match findJob db payload.jobId project.id with
          | none => (.notFound "Order not found.", db)
          | some job =>
            let origItems := itemsOf db job.id
            let db1 := setProjectPoCompany db project.id poNumber companyName
            let locked := jobIsLocked db job
            let copyJobId := gen 0
            let step :
                String × Bool × DB × Nat :=
              if locked then
                let nextJobSortOrder := getNextJobSortOrder db1 project.id
                let copy : Job :=
                  { id := copyJobId, projectId := project.id,
                    name := job.name ++ " (Copy)", isLocked := false,
                    sortOrder := nextJobSortOrder }
                let copyItems := dupItemsFor origItems copyJobId gen 1
                (copyJobId, true,
                  { db1 with jobs := db1.jobs ++ [copy],
                             items := db1.items ++ copyItems },
                  1 + origItems.length)
              else (job.id, false, db1, 0)
            let targetJobId := step.1
            let copied := step.2.1
            let db2 := step.2.2.1
            let genIdx := step.2.2.2
            let db3 :=
              if payload.quantityMode == "replace" then
                applyReplace db2 targetJobId items gen genIdx
              else
                applyAdd db2 targetJobId items (getNextSortOrder db2 targetJobId)
                  gen genIdx
            (.ok project.id targetJobId (some copied),
              deleteJobLevelApprovals db3 project.id targetJobId)
  else (.unsupportedMode, db)

/-- The intermediate state of the copy-on-write branch of save-cart: the
project's po/company overwritten, the copy job appended at the next job
sortOrder, and the original's items duplicated under the copy. -/
def cowDb (db : DB) (projectId po co : String) (job : Job)
    (gen : Nat → String) : DB :=
  let db1 := setProjectPoCompany db projectId po co
  let copy : Job :=
    { id := gen 0, projectId := projectId, name := job.name ++ " (Copy)",
      isLocked := false, sortOrder := getNextJobSortOrder db1 projectId }
  { db1 with jobs := db1.jobs ++ [copy],
             items := db1.items ++ dupItemsFor (itemsOf db job.id) (gen 0) gen 1 }

/-- Result of a reorder intent. updateFailed models the rolled-back
transaction when a row update targets a nonexistent id (Prisma P2025). -/
inductive ReorderResult where
  | notFound
  | forbidden
  | invalidOrder
  | updateFailed
  | noContent
  deriving DecidableEq, Repr

/-- The sequential sortOrder batch of reorder-jobs: the id at position k
gets sortOrder k+1 (jobs are rows of the unique-id Job table, so each
update touches one row). -/
def applyJobSortUpdates (jobs : List Job) (ids : List String) (k : Nat) :
    List Job :=
  match ids with
  | [] => jobs
  | i :: rest =>
    applyJobSortUpdates
      (jobs.map (fun j => if j.id == i then { j with sortOrder := k + 1 } else j))
      rest (k + 1)

/-- The sequential sortOrder batch of reorder-items. -/
def applyItemSortUpdates (items : List JobItem) (ids : List String) (k : Nat) :
    List JobItem :=
  match ids with
  | [] => items
  | i :: rest =>
    applyItemSortUpdates
      (items.map (fun it =>
        if it.id == i then { it with sortOrder := k + 1 } else it))
      rest (k + 1)

/-- The reorder-jobs intent: submitted ids must all resolve to jobs of the
project (count check), then sortOrder := position+1 in one transaction. -/
def reorderJobs (db : DB) (shop customerId projectId : String)
    (jobIds : List String) : ReorderResult × DB :=
  match findProject db projectId shop with
  | none => (.notFound, db)
  | some project =>
    if !(canEdit db project customerId) then (.forbidden, db)
    else if jobIds.isEmpty then (.noContent, db)
    else
      let matching := db.jobs.filter (fun j =>
        jobIds.contains j.id && j.projectId == projectId)
      if matching.length != jobIds.length then (.invalidOrder, db)
      else (.noContent, { db with jobs := applyJobSortUpdates db.jobs jobIds 0 })

/-- The reorder-items intent: no membership validation at all; the
transaction fails (atomically) only if some submitted id matches no
JobItem row. -/
def reorderItems (db : DB) (shop customerId projectId jobId : String)
    (itemIds : List String) : ReorderResult × DB :=
  match findProject db projectId shop with
  | none => (.notFound, db)
  | some project =>
    if !(canEdit db project customerId) then (.forbidden, db)
    else if jobId == "" || itemIds.isEmpty then (.noContent, db)
    else if itemIds.all (fun i => db.items.any (fun it => it.id == i)) then
      (.noContent, { db with items := applyItemSortUpdates db.items itemIds 0 })
    else (.updateFailed, db)

/-- Reading a collection ordered by sortOrder ascending (the loader's
orderBy sortOrder asc on jobs within the project). -/
def readJobsOrdered (db : DB) (projectId : String) : List Job :=
  (jobsOf db projectId).mergeSort (fun a b => decide (a.sortOrder ≤ b.sortOrder))

/-- Reading a job's items ordered by sortOrder ascending. -/
def readItemsOrdered (db : DB) (jobId : String) : List JobItem :=
  (itemsOf db jobId).mergeSort (fun a b => decide (a.sortOrder ≤ b.sortOrder))

/-- One quantity update of the save-order-edit payload. -/
structure ItemUpdate where
  itemId : String
  quantity : Int
  deriving DecidableEq, Repr

/-- Result of the save-order-edit intent. -/
inductive EditResult where
  | notFound
  | forbidden
  | redirect
  deriving DecidableEq, Repr

/-- Cascade delete of a job: its items and its order link go with it
(ApprovalRequest has no foreign key to Job, so its rows stay). -/
def deleteJobCascade (db : DB) (jobId : String) : DB :=
  { db with jobs := db.jobs.filter (fun j => j.id != jobId),
            items := db.items.filter (fun it => it.jobId != jobId),
            orderLinks := db.orderLinks.filter (fun o => o != jobId) }

/-- The save-order-edit update loop: an update applies only when its
itemId is among the job's items (snapshot taken at fetch) and the
quantity is nonnegative. -/
def applyQuantityUpdates (db : DB) (jobItems : List JobItem)
    (updates : List ItemUpdate) : DB :=
  match updates with
  | [] => db
  | u :: rest =>
    if (jobItems.any (fun it => it.id == u.itemId)) && decide (0 ≤ u.quantity) then
      applyQuantityUpdates
        { db with items := db.items.map (fun it =>
            if it.id == u.itemId then { it with quantity := u.quantity } else it) }
        jobItems rest
    else applyQuantityUpdates db jobItems rest

/-- The save-order-edit intent: under edit access, a missing or locked
target job silently redirects with no mutation; otherwise deleteJob or
the quantity updates are applied.  itemUpdates is assumed already
shape-filtered (the route drops entries with quantity < 0 at parse time;
the loop re-checks nonnegativity anyway). -/
def saveOrderEdit (db : DB) (shop customerId projectId jobId : String)
    (itemUpdates : List ItemUpdate) (deleteJob : Bool) : EditResult × DB :=
  match findProject db projectId shop with
  | none => (.notFound, db)
  | some project =>
    if !(canEdit db project customerId) then (.forbidden, db)
    else if jobId == "" then (.redirect, db)
    else
      match findJob db jobId projectId with
      | none => (.redirect, db)
      | some job =>
        if jobIsLocked db job then (.redirect, db)
        else if deleteJob then (.redirect, deleteJobCascade db jobId)
        else
          (.redirect,
            applyQuantityUpdates db (itemsOf db job.id)
              (itemUpdates.filter (fun u => decide (0 ≤ u.quantity))))

/-- Result of the create-job intent. -/
inductive JobCreateResult where
  | notFound
  | unauthorized
  | forbidden
  | validationError (msg : String)
  | redirect
  deriving DecidableEq, Repr

/-- The create-job intent of the api route and of the projects route:
case-insensitive duplicate-name check within the project, then append at
the next job sortOrder.  The project-detail route carries a third,
divergent create-job handler without the check — see createJobDetail. -/
def createJob (db : DB) (shop customerId projectId jobName : String)
    (gen : Nat → String) : JobCreateResult × DB :=
  match findProject db projectId shop with
  | none => (.notFound, db)
  | some project =>
    if !(isMemberOf db project customerId) then (.unauthorized, db)
    else if !(canEdit db project customerId) then (.forbidden, db)
    else
      let name := strTrim jobName
      if name == "" then (.validationError "Order name is required.", db)
      else
        let normalizedName := strLower name
        if (jobsOf db projectId).any (fun j => strLower j.name == normalizedName)
        then (.validationError "This order already exists.", db)
        else
          (.redirect,
            { db with jobs := db.jobs ++
                [{ id := gen 0, projectId := projectId, name := name,
                   isLocked := false, sortOrder := getNextJobSortOrder db projectId }] })

/-- The project-detail route's create-job intent: same preamble and trim,
but an empty name silently redirects and there is no duplicate-name check
at all — the job is created unconditionally at the next sortOrder. -/
def createJobDetail (db : DB) (shop customerId projectId jobName : String)
    (gen : Nat → String) : JobCreateResult × DB :=
  match findProject db projectId shop with
  | none => (.notFound, db)
  | some project =>
    if !(isMemberOf db project customerId) then (.unauthorized, db)
    else if !(canEdit db project customerId) then (.forbidden, db)
    else
      let name := strTrim jobName
      if name == "" then (.redirect, db)
      else
        (.redirect,
          { db with jobs := db.jobs ++
              [{ id := gen 0, projectId := projectId, name := name,
                 isLocked := false,
                 sortOrder := getNextJobSortOrder db projectId }] })

/-- Result of the delete-item intent. -/
inductive ItemDeleteResult where
  | notFound
  | unauthorized
  | forbidden
  | lockedError
  | redirect
  deriving DecidableEq, Repr

/-- The delete-item intent: deletes the item (parent job unlocked), then
deletes the job-level ApprovalRequest of the parent job
(projectId, jobId = parent, itemId = "") — identical in the form route and
the api route. -/
def deleteItem (db : DB) (shop customerId projectId itemId : String) :
    ItemDeleteResult × DB :=
  match findProject db projectId shop with
  | none => (.notFound, db)
  | some project =>
    if !(isMemberOf db project customerId) then (.unauthorized, db)
    else if !(canEdit db project customerId) then (.forbidden, db)
    else if itemId == "" then (.redirect, db)
    else
      match db.items.find? (fun it => it.id == itemId) with
      | none => (.notFound, db)
      | some item =>
        match db.jobs.find? (fun j => j.id == item.jobId) with
        | none => (.notFound, db)
        | some job =>
          if job.projectId != projectId then (.notFound, db)
          else if jobIsLocked db job then (.lockedError, db)
          else
            (.redirect,
              deleteJobLevelApprovals
                { db with items := db.items.filter (fun it => it.id != itemId) }
                projectId item.jobId)

/-- Environment of the member-directory capability for add-member. -/
structure MemberEnv where
  lookupOk : Bool
  customerIdByEmail : String → Option String

/-- Result of a member-management call.  memberError is the form route's
status-200 response carrying only an error message; redirect is its
success (or silent no-op) signal. -/
inductive MemberResult where
  | notFound (msg : String)
  | unauthorized
  | forbidden (msg : String)
  | badRequest (msg : String)
  | memberError (msg : String)
  | redirect
  | okJson
  deriving DecidableEq, Repr

/-- Upsert of the (projectId, customerId) ProjectMember row. -/
def upsertMember (db : DB) (projectId customerId role : String) : DB :=
  if db.members.any (fun m =>
      m.projectId == projectId && m.customerId == customerId) then
    { db with members := db.members.map (fun m =>
        if m.projectId == projectId && m.customerId == customerId then
          { m with role := role }
        else m) }
  else
    { db with members := db.members ++
        [{ projectId := projectId, customerId := customerId, role := role }] }

/-- The api route's add-member intent (strictly owner; non-owner gets 403). -/
def addMemberApi (env : MemberEnv) (db : DB)
    (shop customerId projectId email role : String) : MemberResult × DB :=
  match findProject db projectId shop with
  | none => (.notFound "Project not found.", db)
  | some project =>
    if !(isMemberOf db project customerId) then (.unauthorized, db)
    else if !(project.ownerCustomerId == customerId) then
      (.forbidden "Only the project owner can add members.", db)
    else
      let email := strTrim email
      let role := if role == "edit" then "edit" else "view"
      if email == "" then (.badRequest "Email is required.", db)
      else if !env.lookupOk then (.badRequest "Customer lookup failed.", db)
      else
        match env.customerIdByEmail email with
        | none => (.notFound "No customer found with that email.", db)
        | some memberCustomerId =>
          if memberCustomerId == project.ownerCustomerId then
            (.badRequest "This customer already owns the project.", db)
          else (.okJson, upsertMember db projectId memberCustomerId role)

/-- The api route's remove-member intent (strictly owner; non-owner gets 403). -/
def removeMemberApi (db : DB)
    (shop customerId projectId memberCustomerId : String) : MemberResult × DB :=
  match findProject db projectId shop with
  | none => (.notFound "Project not found.", db)
  | some project =>
    if !(isMemberOf db project customerId) then (.unauthorized, db)
    else if !(project.ownerCustomerId == customerId) then
      (.forbidden "Only the project owner can remove members.", db)
    else if memberCustomerId == "" ||
        memberCustomerId == project.ownerCustomerId then
      (.badRequest "Invalid member.", db)
    else
      (.okJson, { db with members := db.members.filter (fun m =>
        !(m.projectId == projectId && m.customerId == memberCustomerId)) })

/-- The form route's add-member intent: a non-owner caller gets a
memberError message in a status-200 response, with no mutation. -/
def addMemberForm (env : MemberEnv) (db : DB)
    (shop customerId projectId email role : String) : MemberResult × DB :=
  match findProject db projectId shop with
  | none => (.notFound "Project not found", db)
  | some project =>
    if !(isMemberOf db project customerId) then (.unauthorized, db)
    else if !(project.ownerCustomerId == customerId) then
      (.memberError "Only the project owner can add members.", db)
    else
      let email := strTrim email
      if email == "" then (.memberError "Email is required.", db)
      else if !env.lookupOk then (.memberError "Customer lookup failed.", db)
      else
        match env.customerIdByEmail email with
        | none => (.memberError "No customer found with that email.", db)
        | some memberCustomerId =>
          if memberCustomerId == project.ownerCustomerId then
            (.memberError "This customer already owns the project.", db)
          else
            (.redirect,
              upsertMember db projectId memberCustomerId
                (if role == "edit" then "edit" else "view"))

/-- The form route's remove-member intent: a non-owner caller is silently
redirected with no mutation (no error at all). -/
def removeMemberForm (db : DB)
    (shop customerId projectId memberCustomerId : String) : MemberResult × DB :=
  match findProject db projectId shop with
  | none => (.notFound "Project not found", db)
  | some project =>
    if !(isMemberOf db project customerId) then (.unauthorized, db)
    else if !(project.ownerCustomerId == customerId) then (.redirect, db)
    else if memberCustomerId == "" ||
        memberCustomerId == project.ownerCustomerId then
      (.redirect, db)
    else
      (.redirect, { db with members := db.members.filter (fun m =>
        !(m.projectId == projectId && m.customerId == memberCustomerId)) })

/-- Profile data returned by the customer directory. -/
structure CustomerInfo where
  email : Option String
  firstName : String
  lastName : String
  tags : List String
  deriving DecidableEq, Repr

/-- Environment of the notification and customer-directory capabilities.
sendOk says per recipient whether sendEmail succeeds; now is the clock. -/
structure NotifyEnv where
  emailConfigured : Bool
  customersOk : Bool
  customerOf : String → Option CustomerInfo
  sendOk : String → Bool
  now : Nat

/-- The NA-tag test: some tag trims and uppercases to "NA". -/
def hasNATag (tags : List String) : Bool :=
  tags.any (fun t => strUpper (strTrim t) == "NA")

/-- The tags of a customer, empty when the directory has no entry. -/
def tagsOf (env : NotifyEnv) (customerId : String) : List String :=
  match env.customerOf customerId with
  | some c => c.tags
  | none => []

/-- The member-id list of a project: owner first, then the member rows. -/
def memberIdsOf (db : DB) (project : Project) : List String :=
  project.ownerCustomerId ::
    (db.members.filter (fun m => m.projectId == project.id)).map
      (fun m => m.customerId)

/-- A usable e-mail address: present and nonempty after trim. -/
def presentEmail (c : Option CustomerInfo) : Option String :=
  match c with
  | none => none
  | some info =>
    match info.email with
    | none => none
    | some e => if strTrim e == "" then none else some e

/-- Sequential e-mail dispatch: stops at the first failure.  Returns
whether all sends succeeded and the list of recipients actually sent to. -/
def sendAll (env : NotifyEnv) (tos : List String) : Bool × List String :=
  match tos with
  | [] => (true, [])
  | t :: rest =>
    if env.sendOk t then
      let r := sendAll env rest
      (r.1, t :: r.2)
    else (false, [])

/-- Result of an approval-workflow call. -/
inductive ApprovalResult where
  | badRequest
  | notFound
  | unauthorized
  | forbidden
  | configError
  | dependencyFailed
  | noApprovers
  | sendFailed
  | alreadyApprovedError
  | okDone
  | okAlreadyApproved
  deriving DecidableEq, Repr

/-- ApprovalRequest lookup by its unique scope triple. -/
def findApproval (db : DB) (projectId jobId itemId : String) :
    Option ApprovalRequest :=
  db.approvals.find? (fun a =>
    a.projectId == projectId && a.jobId == jobId && a.itemId == itemId)

/-- The upsert of submit-for-approval: refresh requestedAt if the scope's
row exists, else create it unapproved (rows are addressed by the unique
scope triple). -/
def upsertApproval (db : DB) (projectId jobId itemId : String) (now : Nat) : DB :=
  match findApproval db projectId jobId itemId with
  | some _ =>
    { db with approvals := db.approvals.map (fun a =>
        if a.projectId == projectId && a.jobId == jobId && a.itemId == itemId
        then { a with requestedAt := now }
        else a) }
  | none =>
    { db with approvals := db.approvals ++
        [{ projectId := projectId, jobId := jobId, itemId := itemId,
           requestedAt := now, approvedAt := none,
           approvedByCustomerId := none }] }

/-- The submit-for-approval intent: hard ConfigurationError without the
e-mail capability; recipients are all project members minus the requester
and minus NA-tagged members, kept only with a usable e-mail; empty →
NoApproversError; the ApprovalRequest upsert happens only after every
notification was sent (a send failure aborts with no row written).
Message text is presentation and abstracted to the recipient list. -/
def submitForApproval (env : NotifyEnv) (db : DB)
    (shop customerId projectId jobId itemId : String) :
    ApprovalResult × DB × List String :=
  if projectId == "" then (.badRequest, db, [])
  else
    match findProject db projectId shop with
    | none => (.notFound, db, [])
    | some project =>
      if !(isMemberOf db project customerId) then (.unauthorized, db, [])
      else if !env.emailConfigured then (.configError, db, [])
      else if !env.customersOk then (.dependencyFailed, db, [])
      else
        let memberIds := memberIdsOf db project
        let approverIds := memberIds.filter (fun i =>
          !(hasNATag (tagsOf env i)) && i != customerId)
        let approverEmails := approverIds.filterMap (fun i =>
          presentEmail (env.customerOf i))
        if approverEmails.isEmpty then (.noApprovers, db, [])
        else
          let send := sendAll env approverEmails
          if !send.1 then (.sendFailed, db, send.2)
          else (.okDone, upsertApproval db projectId jobId itemId env.now,
            approverEmails)

/-- The cancel-approval-request intent: canEdit gate, NotFound without a
row at the scope, AlreadyApprovedError if approved, else delete.  The
reject-with-reason action variant shares exactly these checks and
deletion. -/
def cancelApprovalRequest (db : DB)
    (shop customerId projectId jobId itemId : String) : ApprovalResult × DB :=
  if projectId == "" then (.badRequest, db)
  else
    match findProject db projectId shop with
    | none => (.notFound, db)
    | some project =>
      if !(isMemberOf db project customerId) then (.unauthorized, db)
      else if !(canEdit db project customerId) then (.forbidden, db)
      else
        match findApproval db projectId jobId itemId with
        | none => (.notFound, db)
        | some existing =>
          if existing.approvedAt.isSome then (.alreadyApprovedError, db)
          else
            (.okDone, { db with approvals := db.approvals.filter (fun a =>
              !(a.projectId == projectId && a.jobId == jobId &&
                a.itemId == itemId)) })

/-- The approve intent: member gate plus the NA-tag approver gate;
idempotent on an approved row ({ ok, alreadyApproved: true }, no state
change, no e-mails); first approval stamps approvedAt/approvedByCustomerId
and then best-effort notifies every member (failures swallowed). -/
def approveRequest (env : NotifyEnv) (db : DB)
    (shop customerId projectId jobId itemId : String) :
    ApprovalResult × DB × List String :=
  if projectId == "" then (.badRequest, db, [])
  else
    match findProject db projectId shop with
    | none => (.notFound, db, [])
    | some project =>
      if !(isMemberOf db project customerId) then (.unauthorized, db, [])
      else if !env.customersOk then (.dependencyFailed, db, [])
      else if hasNATag (tagsOf env customerId) then (.forbidden, db, [])
      else
        match findApproval db projectId jobId itemId with
        | none => (.notFound, db, [])
        | some existing =>
          if existing.approvedAt.isSome then (.okAlreadyApproved, db, [])
          else
            let db1 : DB :=
              { db with approvals := db.approvals.map (fun a =>
                  if a.projectId == projectId && a.jobId == jobId &&
                      a.itemId == itemId then
                    { a with approvedAt := some env.now,
                             approvedByCustomerId := some customerId }
                  else a) }
            if env.emailConfigured then
              let memberEmails := (memberIdsOf db project).filterMap (fun i =>
                presentEmail (env.customerOf i))
              (.okDone, db1, (sendAll env memberEmails).2)
            else (.okDone, db1, [])

/-- Position of the first occurrence of x in ids (proof helper mirroring
the index assignment of the reorder batches). -/
def sortIdx (ids : List String) (x : String) : Option Nat :=
  match ids with
  | [] => none
  | i :: rest => if i == x then some 0 else (sortIdx rest x).map (fun n => n + 1)

/-- The projection of a JobItem compared by the copy-on-write duplication:
variantId, quantity, priceSnapshot, per-item sortOrder. -/
def itemData (it : JobItem) : String × Int × Int × Nat :=
  (it.variantId, it.quantity, it.priceSnapshot, it.sortOrder)

/-- The rows of one (jobId, variantId) pair — by the unique index
JobItem_jobId_variantId_key there is at most one in a well-formed store. -/
def jobVariantRows (items : List JobItem) (jobId variantId : String) :
    List JobItem :=
  items.filter (fun it => it.jobId == jobId && it.variantId == variantId)

/-- Total quantity held by a (jobId, variantId) pair. -/
def quantityTotal (items : List JobItem) (jobId variantId : String) : Int :=
  ((jobVariantRows items jobId variantId).map (fun it => it.quantity)).sum

/-- The incoming cart lines carrying one variantId. -/
def linesFor (lines : List CartLine) (variantId : String) : List CartLine :=
  lines.filter (fun l => l.variantId == variantId)

/-- Concrete tenant fixture: one project with an owner, an editor and a
viewer, one locked and one unlocked job, one item each. -/
def wProject : Project :=
  { id := "p1", shop := "shop1", name := "Deck A", ownerCustomerId := "owner",
    poNumber := "PO-0", companyName := "Acme" }

/-- Fixture locked job. -/
def wJobL : Job :=
  { id := "jL", projectId := "p1", name := "Order 1", isLocked := true,
    sortOrder := 1 }

/-- Fixture unlocked job. -/
def wJobU : Job :=
  { id := "jU", projectId := "p1", name := "Order 2", isLocked := false,
    sortOrder := 2 }

/-- Fixture item of the locked job. -/
def wItemL : JobItem :=
  { id := "iL1", jobId := "jL", variantId := "v1", quantity := 2,
    priceSnapshot := 10, sortOrder := 1 }

/-- Fixture item of the unlocked job. -/
def wItemU : JobItem :=
  { id := "iU1", jobId := "jU", variantId := "v1", quantity := 3,
    priceSnapshot := 10, sortOrder := 1 }

/-- Fixture database. -/
def wDb : DB :=
  { projects := [wProject],
    jobs := [wJobL, wJobU],
    items := [wItemL, wItemU],
    members := [{ projectId := "p1", customerId := "editor", role := "edit" },
                { projectId := "p1", customerId := "viewer", role := "view" }],
    orderLinks := [],
    approvals := [] }

/-- Fresh id stream used by fixtures. -/
def wGen : Nat → String := fun n => "new" ++ String.mk (List.replicate n 'x')

/-- Fixture customer directory: every fixture customer has a usable
address; nobody carries the NA tag. -/
def wDirectory : String → Option CustomerInfo := fun i =>
  if i == "owner" then
    some { email := some "owner@acme.test", firstName := "Olive",
           lastName := "Wong", tags := [] }
  else if i == "editor" then
    some { email := some "editor@acme.test", firstName := "Ed",
           lastName := "Itor", tags := [] }
  else if i == "viewer" then
    some { email := some "viewer@acme.test", firstName := "Vi",
           lastName := "Ewer", tags := [] }
  else none

/-- Fully working notification environment. -/
def wEnvOk : NotifyEnv :=
  { emailConfigured := true, customersOk := true, customerOf := wDirectory,
    sendOk := fun _ => true, now := 7 }

/-- Environment with the e-mail capability unconfigured. -/
def wEnvNoEmail : NotifyEnv := { wEnvOk with emailConfigured := false }

/-- The pending project-level approval-request row of the fixtures. -/
def wProjReq : ApprovalRequest :=
  { projectId := "p1", jobId := "", itemId := "", requestedAt := 0,
    approvedAt := none, approvedByCustomerId := none }

/-- The pending job-level approval-request row (unlocked job) of the fixtures. -/
def wJobReq : ApprovalRequest :=
  { projectId := "p1", jobId := "jU", itemId := "", requestedAt := 0,
    approvedAt := none, approvedByCustomerId := none }

/-- Fixture with a pending project-level approval request. -/
def wDbProjApproval : DB := { wDb with approvals := [wProjReq] }

/-- Fixture with a pending job-level approval request on the unlocked job
and a pending project-level one. -/
def wDbJobApproval : DB := { wDb with approvals := [wJobReq, wProjReq] }

/-- The item-scoped approval-request row on the unlocked job's item. -/
def wItemReq : ApprovalRequest :=
  { projectId := "p1", jobId := "jU", itemId := "iU1", requestedAt := 0,
    approvedAt := none, approvedByCustomerId := none }

/-- Fixture with a pending item-scoped approval request. -/
def wDbItemApproval : DB := { wDb with approvals := [wItemReq] }

/-- Save-cart payload creating a job under the fixture project whose name
duplicates the locked job's name up to case. -/
def wPayloadDup : SavePayload :=
  { mode := "existingProject", poNumber := "PO-2", companyName := "Acme",
    projectName := "", jobName := "ORDER 1", projectId := "p1", jobId := "",
    quantityMode := "",
    items := [{ variantId := "v2", quantity := 1, priceSnapshot := 5 }] }

/-- Fixture in which the unlocked job has no items. -/
def wDbNoItems : DB := { wDb with items := [wItemL] }

/-- Save-cart payload adding the line (v9, quantity 3) to the unlocked
fixture job in add mode. -/
def wPayloadV3 : SavePayload :=
  { mode := "existingJob", poNumber := "PO-9", companyName := "Acme",
    projectName := "", jobName := "", projectId := "p1", jobId := "jU",
    quantityMode := "add",
    items := [{ variantId := "v9", quantity := 3, priceSnapshot := 25 }] }

/-- Save-cart payload whose two lines share one variantId: the second line
must merge into the row the first line creates within the same call. -/
def wPayloadMerge2 : SavePayload :=
  { mode := "existingJob", poNumber := "PO-9", companyName := "Acme",
    projectName := "", jobName := "", projectId := "p1", jobId := "jU",
    quantityMode := "add",
    items := [{ variantId := "v9", quantity := 3, priceSnapshot := 25 },
              { variantId := "v9", quantity := 4, priceSnapshot := 30 }] }

/-- Save-cart payload with two lines of distinct new variantIds: the rows
must land at successive sortOrders. -/
def wPayloadTwoNew : SavePayload :=
  { mode := "existingJob", poNumber := "PO-9", companyName := "Acme",
    projectName := "", jobName := "", projectId := "p1", jobId := "jU",
    quantityMode := "add",
    items := [{ variantId := "v8", quantity := 1, priceSnapshot := 5 },
              { variantId := "v9", quantity := 2, priceSnapshot := 6 }] }

/-- Save-cart payload targeting the locked fixture job in add mode. -/
def wPayloadL : SavePayload :=
  { mode := "existingJob", poNumber := "PO-3", companyName := "Acme",
    projectName := "", jobName := "", projectId := "p1", jobId := "jL",
    quantityMode := "add",
    items := [{ variantId := "v2", quantity := 2, priceSnapshot := 15 }] }

/-- Save-cart payload targeting the unlocked fixture job in add mode. -/
def wPayloadU : SavePayload :=
  { mode := "existingJob", poNumber := "PO-1", companyName := "Acme",
    projectName := "", jobName := "", projectId := "p1", jobId := "jU",
    quantityMode := "add",
    items := [{ variantId := "v1", quantity := 1, priceSnapshot := 10 }] }

/-- C10: under edit access, save-order-edit with a missing or locked target
job returns the success redirect and changes nothing (no LockedError, no
NotFound); deleteJob and the quantity updates (quantity 0 included) are
applied exactly when the target job resolves in the project and is
unlocked. -/
theorem C10_save_order_edit (db : DB) (shop customerId projectId jobId : String)
    (itemUpdates : List ItemUpdate) (deleteJob : Bool) (project : Project)
    (hproj : findProject db projectId shop = some project)
    (hedit : canEdit db project customerId = true) :
    ((jobId = "" ∨ findJob db jobId projectId = none ∨
        (∃ job, findJob db jobId projectId = some job ∧
          jobIsLocked db job = true)) →
      saveOrderEdit db shop customerId projectId jobId itemUpdates deleteJob =
        (.redirect, db)) ∧
    (∀ job, jobId ≠ "" → findJob db jobId projectId = some job →
      jobIsLocked db job = false →
      saveOrderEdit db shop customerId projectId jobId itemUpdates deleteJob =
        (.redirect,
          if deleteJob then deleteJobCascade db jobId
          else applyQuantityUpdates db (itemsOf db job.id)
            (itemUpdates.filter (fun u => decide (0 ≤ u.quantity))))) := by
  constructor
  · rintro (h | h | ⟨job, hj, hl⟩)
    · simp [saveOrderEdit, hproj, hedit, h]
    · by_cases hj0 : jobId = "" <;>
        simp [saveOrderEdit, hproj, hedit, h, hj0]
    · by_cases hj0 : jobId = "" <;>
        simp [saveOrderEdit, hproj, hedit, hj, hl, hj0]
  · intro job hj0 hj hl
    cases deleteJob <;> simp [saveOrderEdit, hproj, hedit, hj0, hj, hl]

/-- Witness for C10: the fixture editor targets the locked job; the call
returns redirect and leaves the database untouched. -/
theorem C10_save_order_edit_witness :
    saveOrderEdit wDb "shop1" "editor" "p1" "jL" [] false = (.redirect, wDb) := by
  have h := (C10_save_order_edit wDb "shop1" "editor" "p1" "jL" [] false wProject
    (by decide) (by decide)).1
  refine h (Or.inr (Or.inr ⟨⟨"jL", "p1", "Order 1", true, 1⟩, by decide, by decide⟩))

/-- C9 (amended): a non-owner caller (editors included) can never change
the ProjectMember set through add/remove-member; the api route fails with
a Forbidden (403) error, but on the form route add-member answers with a
status-200 memberError message and remove-member completes as a silent
no-op redirect. -/
theorem C9_member_ops_non_owner (env : MemberEnv) (db : DB)
    (shop customerId projectId email role memberCustomerId : String)
    (project : Project)
    (hproj : findProject db projectId shop = some project)
    (hmem : isMemberOf db project customerId = true)
    (hown : project.ownerCustomerId ≠ customerId) :
    addMemberApi env db shop customerId projectId email role =
      (.forbidden "Only the project owner can add members.", db) ∧
    removeMemberApi db shop customerId projectId memberCustomerId =
      (.forbidden "Only the project owner can remove members.", db) ∧
    addMemberForm env db shop customerId projectId email role =
      (.memberError "Only the project owner can add members.", db) ∧
    removeMemberForm db shop customerId projectId memberCustomerId =
      (.redirect, db) := by
  have hb : (project.ownerCustomerId == customerId) = false :=
    beq_eq_false_iff_ne.mpr hown
  refine ⟨?_, ?_, ?_, ?_⟩ <;>
    simp [addMemberApi, removeMemberApi, addMemberForm, removeMemberForm,
      hproj, hmem, hb]

/-- Witness for C9's amended statement at the fixture editor. -/
theorem C9_member_ops_non_owner_witness :
    removeMemberApi wDb "shop1" "editor" "p1" "viewer" =
      (.forbidden "Only the project owner can remove members.", wDb) :=
  (C9_member_ops_non_owner { lookupOk := true, customerIdByEmail := fun _ => none }
    wDb "shop1" "editor" "p1" "a@b.c" "view" "viewer" wProject
    (by decide) (by decide) (by decide)).2.1

/-- Counterexample to C9 as stated: on the form route, remove-member by
the edit-role member completes as a plain success redirect with the
member set unchanged — a silent no-op, not a Forbidden failure. -/
theorem C9_counterexample :
    removeMemberForm wDb "shop1" "editor" "p1" "viewer" = (.redirect, wDb) ∧
      ∀ msg, (MemberResult.redirect ≠ MemberResult.forbidden msg ∧
        MemberResult.redirect ≠ MemberResult.memberError msg) :=
  ⟨by decide, fun _ => ⟨fun h => MemberResult.noConfusion h,
    fun h => MemberResult.noConfusion h⟩⟩

theorem applyReplace_approvals (db : DB) (t : String) (lines : List CartLine)
    (g : Nat → String) (i : Nat) :
    (applyReplace db t lines g i).approvals = db.approvals := rfl

theorem applyReplace_jobs (db : DB) (t : String) (lines : List CartLine)
    (g : Nat → String) (i : Nat) :
    (applyReplace db t lines g i).jobs = db.jobs := rfl

theorem applyReplace_projects (db : DB) (t : String) (lines : List CartLine)
    (g : Nat → String) (i : Nat) :
    (applyReplace db t lines g i).projects = db.projects := rfl

theorem setProjectPoCompany_approvals (db : DB) (projectId po co : String) :
    (setProjectPoCompany db projectId po co).approvals = db.approvals := rfl

theorem setProjectPoCompany_jobs (db : DB) (projectId po co : String) :
    (setProjectPoCompany db projectId po co).jobs = db.jobs := rfl

theorem setProjectPoCompany_items (db : DB) (projectId po co : String) :
    (setProjectPoCompany db projectId po co).items = db.items := rfl

theorem deleteJobLevelApprovals_items (db : DB) (projectId jobId : String) :
    (deleteJobLevelApprovals db projectId jobId).items = db.items := rfl

theorem deleteJobLevelApprovals_jobs (db : DB) (projectId jobId : String) :
    (deleteJobLevelApprovals db projectId jobId).jobs = db.jobs := rfl

theorem applyAdd_projects (db : DB) (t : String) (lines : List CartLine)
    (n : Nat) (g : Nat → String) (i : Nat) :
    (applyAdd db t lines n g i).projects = db.projects := by
  induction lines generalizing db n i with
  | nil => rfl
  | cons l rest ih =>
    rw [applyAdd]
    cases db.items.find? (fun it => it.jobId == t && it.variantId == l.variantId)
      with
    | none => exact ih ..
    | some ex => exact ih ..

theorem applyAdd_jobs (db : DB) (t : String) (lines : List CartLine)
    (n : Nat) (g : Nat → String) (i : Nat) :
    (applyAdd db t lines n g i).jobs = db.jobs := by
  induction lines generalizing db n i with
  | nil => rfl
  | cons l rest ih =>
    rw [applyAdd]
    cases db.items.find? (fun it => it.jobId == t && it.variantId == l.variantId)
      with
    | none => exact ih ..
    | some ex => exact ih ..

theorem applyAdd_members (db : DB) (t : String) (lines : List CartLine)
    (n : Nat) (g : Nat → String) (i : Nat) :
    (applyAdd db t lines n g i).members = db.members := by
  induction lines generalizing db n i with
  | nil => rfl
  | cons l rest ih =>
    rw [applyAdd]
    cases db.items.find? (fun it => it.jobId == t && it.variantId == l.variantId)
      with
    | none => exact ih ..
    | some ex => exact ih ..

theorem applyAdd_orderLinks (db : DB) (t : String) (lines : List CartLine)
    (n : Nat) (g : Nat → String) (i : Nat) :
    (applyAdd db t lines n g i).orderLinks = db.orderLinks := by
  induction lines generalizing db n i with
  | nil => rfl
  | cons l rest ih =>
    rw [applyAdd]
    cases db.items.find? (fun it => it.jobId == t && it.variantId == l.variantId)
      with
    | none => exact ih ..
    | some ex => exact ih ..

theorem applyAdd_approvals (db : DB) (t : String) (lines : List CartLine)
    (n : Nat) (g : Nat → String) (i : Nat) :
    (applyAdd db t lines n g i).approvals = db.approvals := by
  induction lines generalizing db n i with
  | nil => rfl
  | cons l rest ih =>
    rw [applyAdd]
    cases db.items.find? (fun it => it.jobId == t && it.variantId == l.variantId)
      with
    | none => exact ih ..
    | some ex => exact ih ..

/-- C4 (amended): a successful mode=existingJob save-cart call deletes, as
its approval side effect, exactly the job-level ApprovalRequest rows of
the (possibly copied) target job (jobId = targetJobId, itemId = "");
project-level rows (jobId = "", itemId = "") are not touched. -/
theorem C4_approval_cleanup (db : DB) (shop customerId : String)
    (payload : SavePayload) (gen : Nat → String) (project : Project) (job : Job)
    (hitems : (normalizeItems payload.items).isEmpty = false)
    (hpo : strTrim payload.poNumber ≠ "")
    (hco : strTrim payload.companyName ≠ "")
    (hmode : payload.mode = "existingJob")
    (hpid : payload.projectId ≠ "")
    (hjid : payload.jobId ≠ "")
    (hproj : findProjectAsMember db payload.projectId shop customerId =
      some project)
    (hedit : canEdit db project customerId = true)
    (hjob : findJob db payload.jobId project.id = some job) :
    (saveCart db shop customerId payload gen).1 =
      .ok project.id (if jobIsLocked db job then gen 0 else job.id)
        (some (jobIsLocked db job)) ∧
    (saveCart db shop customerId payload gen).2.approvals =
      db.approvals.filter (fun a =>
        !(a.projectId == project.id &&
          a.jobId == (if jobIsLocked db job then gen 0 else job.id) &&
          a.itemId == "")) := by
  have hpo' : (strTrim payload.poNumber == "") = false := beq_eq_false_iff_ne.mpr hpo
  have hco' : (strTrim payload.companyName == "") = false := beq_eq_false_iff_ne.mpr hco
  have hpid' : (payload.projectId == "") = false := beq_eq_false_iff_ne.mpr hpid
  have hjid' : (payload.jobId == "") = false := beq_eq_false_iff_ne.mpr hjid
  by_cases hl : jobIsLocked db job = true <;>
    cases hq : payload.quantityMode == "replace" <;>
      simp [saveCart, hitems, hpo', hco', hmode, hpid', hjid', hproj, hedit,
        hjob, hl, hq, deleteJobLevelApprovals, applyAdd_approvals,
        applyReplace_approvals, setProjectPoCompany_approvals]

/-- Witness for C4's amended statement: saving into the unlocked fixture
job deletes its pending job-level request and keeps the project-level one. -/
theorem C4_approval_cleanup_witness :
    (saveCart wDbJobApproval "shop1" "editor" wPayloadU wGen).1 =
      .ok "p1" (if jobIsLocked wDbJobApproval wJobU then wGen 0 else wJobU.id)
        (some (jobIsLocked wDbJobApproval wJobU)) ∧
    (saveCart wDbJobApproval "shop1" "editor" wPayloadU wGen).2.approvals =
      wDbJobApproval.approvals.filter (fun a =>
        !(a.projectId == "p1" &&
          a.jobId == (if jobIsLocked wDbJobApproval wJobU then wGen 0
            else wJobU.id) &&
          a.itemId == "")) :=
  C4_approval_cleanup wDbJobApproval "shop1" "editor" wPayloadU wGen wProject
    wJobU (by decide) (by decide) (by decide) (by decide) (by decide)
    (by decide) (by decide) (by decide) (by decide)

/-- Counterexample to C4 as stated: a successful existingJob save that
modifies the unlocked fixture job leaves the pending project-level
ApprovalRequest (jobId = "", itemId = "") in place, deleting nothing but
the job-level scope. -/
theorem C4_counterexample :
    (saveCart wDbProjApproval "shop1" "editor" wPayloadU wGen).1 =
      .ok "p1" "jU" (some false) ∧
    (saveCart wDbProjApproval "shop1" "editor" wPayloadU wGen).2.approvals =
      [wProjReq] := by
  decide

/-- C7 (amended): delete-item removes the item row and deletes the
job-level ApprovalRequest of the item's parent job (jobId = parent,
itemId = ""); ApprovalRequest rows scoped to the deleted item itself
(itemId = deleted id) are not part of the cleanup. -/
theorem C7_delete_item_cleanup (db : DB)
    (shop customerId projectId itemId : String)
    (project : Project) (item : JobItem) (job : Job)
    (hproj : findProject db projectId shop = some project)
    (hmem : isMemberOf db project customerId = true)
    (hedit : canEdit db project customerId = true)
    (hiid : itemId ≠ "")
    (hitem : db.items.find? (fun it => it.id == itemId) = some item)
    (hjob : db.jobs.find? (fun j => j.id == item.jobId) = some job)
    (hjp : job.projectId = projectId)
    (hlock : jobIsLocked db job = false) :
    deleteItem db shop customerId projectId itemId =
      (.redirect,
        { db with items := db.items.filter (fun it => it.id != itemId),
                  approvals := db.approvals.filter (fun a =>
                    !(a.projectId == projectId && a.jobId == item.jobId &&
                      a.itemId == "")) }) := by
  have hiid' : (itemId == "") = false := beq_eq_false_iff_ne.mpr hiid
  have hjp' : (job.projectId != projectId) = false := by simp [hjp]
  simp [deleteItem, hproj, hmem, hedit, hiid', hitem, hjob, hjp', hlock,
    deleteJobLevelApprovals]

/-- Witness for C7's amended statement on the fixture item of the
unlocked job. -/
theorem C7_delete_item_cleanup_witness :
    deleteItem wDbItemApproval "shop1" "editor" "p1" "iU1" =
      (.redirect,
        { wDbItemApproval with
            items := wDbItemApproval.items.filter (fun it => it.id != "iU1"),
            approvals := wDbItemApproval.approvals.filter (fun a =>
              !(a.projectId == "p1" && a.jobId == wItemU.jobId &&
                a.itemId == "")) }) :=
  C7_delete_item_cleanup wDbItemApproval "shop1" "editor" "p1" "iU1" wProject
    wItemU wJobU (by decide) (by decide) (by decide) (by decide) (by decide)
    (by decide) (by decide) (by decide)

/-- Counterexample to C7 as stated: deleting the unlocked job's item
leaves the ApprovalRequest row scoped to that very item (itemId = "iU1")
in the table, referencing a now-deleted item. -/
theorem C7_counterexample :
    (deleteItem wDbItemApproval "shop1" "editor" "p1" "iU1").1 = .redirect ∧
    (deleteItem wDbItemApproval "shop1" "editor" "p1" "iU1").2.items =
      [wItemL] ∧
    (deleteItem wDbItemApproval "shop1" "editor" "p1" "iU1").2.approvals =
      [wItemReq] := by
  decide

/-- C8 (amended): the create-job intents of the api route and of the
projects route reject a name that duplicates an existing job name of the
project case-insensitively (ValidationError, no row created) and otherwise
append the job; the project-detail route's create-job intent performs no
such check and appends the job unconditionally, and neither do the
save-cart modes. -/
theorem C8_create_job_unique_name (db : DB)
    (shop customerId projectId jobName : String) (gen : Nat → String)
    (project : Project)
    (hproj : findProject db projectId shop = some project)
    (hmem : isMemberOf db project customerId = true)
    (hedit : canEdit db project customerId = true)
    (hname : strTrim jobName ≠ "") :
    ((jobsOf db projectId).any (fun j =>
        strLower j.name == strLower (strTrim jobName)) = true →
      createJob db shop customerId projectId jobName gen =
        (.validationError "This order already exists.", db)) ∧
    ((jobsOf db projectId).any (fun j =>
        strLower j.name == strLower (strTrim jobName)) = false →
      createJob db shop customerId projectId jobName gen =
        (.redirect,
          { db with jobs := db.jobs ++
              [{ id := gen 0, projectId := projectId, name := strTrim jobName,
                 isLocked := false,
                 sortOrder := getNextJobSortOrder db projectId }] })) ∧
    (createJobDetail db shop customerId projectId jobName gen =
      (.redirect,
        { db with jobs := db.jobs ++
            [{ id := gen 0, projectId := projectId, name := strTrim jobName,
               isLocked := false,
               sortOrder := getNextJobSortOrder db projectId }] })) := by
  have hname' : (strTrim jobName == "") = false := beq_eq_false_iff_ne.mpr hname
  refine ⟨?_, ?_, ?_⟩
  · intro hdup
    simp [createJob, hproj, hmem, hedit, hname', hdup]
  · intro hdup
    simp [createJob, hproj, hmem, hedit, hname', hdup]
  · simp [createJobDetail, hproj, hmem, hedit, hname']

/-- Witness for C8's amended statement: creating " Order 1 " (duplicate of
the locked job's name up to case and trim) fails with the validation
error. -/
theorem C8_create_job_unique_name_witness :
    createJob wDb "shop1" "editor" "p1" " ORDER 1 " wGen =
      (.validationError "This order already exists.", wDb) :=
  (C8_create_job_unique_name wDb "shop1" "editor" "p1" " ORDER 1 " wGen
    wProject (by decide) (by decide) (by decide) (by decide)).1 (by decide)

/-- Counterexample to C8 as stated: mode=existingProject save-cart happily
creates a job named "ORDER 1" next to the existing "Order 1", and so does
the project-detail route's create-job intent — the case-insensitive
uniqueness invariant is enforced neither by the save-cart modes nor by that
third create-job handler, so it does not hold for all jobs of a project. -/
theorem C8_counterexample :
    (saveCart wDb "shop1" "editor" wPayloadDup wGen).1 = .ok "p1" "new" none ∧
    ((saveCart wDb "shop1" "editor" wPayloadDup wGen).2.jobs.map
      (fun j => strLower j.name)) = ["order 1", "order 2", "order 1"] ∧
    (createJobDetail wDb "shop1" "editor" "p1" "ORDER 1" wGen).1 = .redirect ∧
    ((createJobDetail wDb "shop1" "editor" "p1" "ORDER 1" wGen).2.jobs.map
      (fun j => strLower j.name)) = ["order 1", "order 2", "order 1"] := by
  decide

/-- C6: submit-for-approval fails with ConfigurationError when the e-mail
capability is unconfigured and with NoApproversError when the approver set
(members minus requester minus NA-tagged) is empty; every non-ok outcome
(send failures included) writes no ApprovalRequest row, and on success the
upsert for the exact scope happens only after all notifications were sent. -/
theorem C6_submit_for_approval (env : NotifyEnv) (db : DB)
    (shop customerId projectId jobId itemId : String) (project : Project)
    (hpid : projectId ≠ "")
    (hproj : findProject db projectId shop = some project)
    (hmem : isMemberOf db project customerId = true) :
    (env.emailConfigured = false →
      submitForApproval env db shop customerId projectId jobId itemId =
        (.configError, db, [])) ∧
    (env.emailConfigured = true → env.customersOk = true →
      (memberIdsOf db project).filter (fun i =>
        !(hasNATag (tagsOf env i)) && i != customerId) = [] →
      submitForApproval env db shop customerId projectId jobId itemId =
        (.noApprovers, db, [])) ∧
    ((submitForApproval env db shop customerId projectId jobId itemId).1 ≠
        .okDone →
      (submitForApproval env db shop customerId projectId jobId itemId).2.1 =
        db) ∧
    ((submitForApproval env db shop customerId projectId jobId itemId).1 =
        .okDone →
      (sendAll env
        (submitForApproval env db shop customerId projectId jobId itemId).2.2).1
          = true ∧
      (submitForApproval env db shop customerId projectId jobId itemId).2.1 =
        upsertApproval db projectId jobId itemId env.now ∧
      (submitForApproval env db shop customerId projectId jobId itemId).2.2 =
        ((memberIdsOf db project).filter (fun i =>
          !(hasNATag (tagsOf env i)) && i != customerId)).filterMap (fun i =>
            presentEmail (env.customerOf i))) := by
  have hpid' : (projectId == "") = false := beq_eq_false_iff_ne.mpr hpid
  refine ⟨?_, ?_, ?_, ?_⟩
  · intro hcfg
    simp [submitForApproval, hpid', hproj, hmem, hcfg]
  · intro hcfg hcust hids
    simp [submitForApproval, hpid', hproj, hmem, hcfg, hcust, hids]
  · intro hne
    cases hcfg : env.emailConfigured with
    | false => simp [submitForApproval, hpid', hproj, hmem, hcfg]
    | true =>
      cases hcust : env.customersOk with
      | false => simp [submitForApproval, hpid', hproj, hmem, hcfg, hcust]
      | true =>
        cases hempty : (((memberIdsOf db project).filter (fun i =>
            !(hasNATag (tagsOf env i)) && i != customerId)).filterMap (fun i =>
              presentEmail (env.customerOf i))).isEmpty with
        | true => simp [submitForApproval, hpid', hproj, hmem, hcfg, hcust,
            hempty]
        | false =>
          cases hsend : (sendAll env
              (((memberIdsOf db project).filter (fun i =>
                !(hasNATag (tagsOf env i)) && i != customerId)).filterMap
                  (fun i => presentEmail (env.customerOf i)))).1 with
          | false => simp [submitForApproval, hpid', hproj, hmem, hcfg, hcust,
              hempty, hsend]
          | true =>
            exfalso
            apply hne
            simp [submitForApproval, hpid', hproj, hmem, hcfg, hcust, hempty,
              hsend]
  · intro hok
    cases hcfg : env.emailConfigured with
    | false => simp [submitForApproval, hpid', hproj, hmem, hcfg] at hok
    | true =>
      cases hcust : env.customersOk with
      | false =>
        simp [submitForApproval, hpid', hproj, hmem, hcfg, hcust] at hok
      | true =>
        cases hempty : (((memberIdsOf db project).filter (fun i =>
            !(hasNATag (tagsOf env i)) && i != customerId)).filterMap (fun i =>
              presentEmail (env.customerOf i))).isEmpty with
        | true =>
          simp [submitForApproval, hpid', hproj, hmem, hcfg, hcust, hempty]
            at hok
        | false =>
          cases hsend : (sendAll env
              (((memberIdsOf db project).filter (fun i =>
                !(hasNATag (tagsOf env i)) && i != customerId)).filterMap
                  (fun i => presentEmail (env.customerOf i)))).1 with
          | false =>
            simp [submitForApproval, hpid', hproj, hmem, hcfg, hcust, hempty,
              hsend] at hok
          | true =>
            refine ⟨?_, ?_⟩
            · simp [submitForApproval, hpid', hproj, hmem, hcfg, hcust,
                hempty, hsend]
            · simp [submitForApproval, hpid', hproj, hmem, hcfg, hcust,
                hempty, hsend]

/-- Witness for C6 in the unconfigured-e-mail environment. -/
theorem C6_submit_for_approval_witness :
    submitForApproval wEnvNoEmail wDb "shop1" "editor" "p1" "" "" =
      (.configError, wDb, []) :=
  (C6_submit_for_approval wEnvNoEmail wDb "shop1" "editor" "p1" "" "" wProject
    (by decide) (by decide) (by decide)).1 (by rfl)

theorem find?_map_scope (l : List ApprovalRequest) (pid jid iid : String)
    (g : ApprovalRequest → ApprovalRequest)
    (hg : ∀ a, (g a).projectId = a.projectId ∧ (g a).jobId = a.jobId ∧
      (g a).itemId = a.itemId) :
    (l.map g).find? (fun a =>
        a.projectId == pid && a.jobId == jid && a.itemId == iid) =
      (l.find? (fun a =>
        a.projectId == pid && a.jobId == jid && a.itemId == iid)).map g := by
  induction l with
  | nil => rfl
  | cons a l ih =>
    have h := hg a
    simp only [List.map_cons, List.find?_cons]
    rw [h.1, h.2.1, h.2.2]
    cases hpa : (a.projectId == pid && a.jobId == jid && a.itemId == iid) with
    | true => rfl
    | false => exact ih

theorem cancel_after_approved (db : DB)
    (shop caller projectId jobId itemId : String) (project : Project)
    (ex : ApprovalRequest)
    (hpid : projectId ≠ "")
    (hproj : findProject db projectId shop = some project)
    (hm : isMemberOf db project caller = true)
    (he : canEdit db project caller = true)
    (hex : findApproval db projectId jobId itemId = some ex)
    (happ : ex.approvedAt.isSome = true) :
    cancelApprovalRequest db shop caller projectId jobId itemId =
      (.alreadyApprovedError, db) := by
  have hpid' : (projectId == "") = false := beq_eq_false_iff_ne.mpr hpid
  simp [cancelApprovalRequest, hpid', hproj, hm, he, hex, happ]

theorem approve_after_approved (env : NotifyEnv) (db : DB)
    (shop caller projectId jobId itemId : String) (project : Project)
    (ex : ApprovalRequest)
    (hpid : projectId ≠ "")
    (hproj : findProject db projectId shop = some project)
    (hm : isMemberOf db project caller = true)
    (hcust : env.customersOk = true)
    (hna : hasNATag (tagsOf env caller) = false)
    (hex : findApproval db projectId jobId itemId = some ex)
    (happ : ex.approvedAt.isSome = true) :
    approveRequest env db shop caller projectId jobId itemId =
      (.okAlreadyApproved, db, []) := by
  have hpid' : (projectId == "") = false := beq_eq_false_iff_ne.mpr hpid
  simp [approveRequest, hpid', hproj, hm, hcust, hna, hex, happ]

/-- C5: once approve(scope) has succeeded, the scope's row is stamped with
approvedAt/approvedByCustomerId; from then on every authorized cancel
fails with AlreadyApprovedError without deleting the row, and every
further authorized approve returns alreadyApproved = true, changes
nothing, and sends no notifications. -/
theorem C5_approval_terminal (env1 : NotifyEnv) (db : DB)
    (shop caller1 projectId jobId itemId : String) (project : Project)
    (ex : ApprovalRequest)
    (hpid : projectId ≠ "")
    (hproj : findProject db projectId shop = some project)
    (hmem1 : isMemberOf db project caller1 = true)
    (hcust1 : env1.customersOk = true)
    (hna1 : hasNATag (tagsOf env1 caller1) = false)
    (hex : findApproval db projectId jobId itemId = some ex)
    (hun : ex.approvedAt = none) :
    (approveRequest env1 db shop caller1 projectId jobId itemId).1 = .okDone ∧
    findApproval
        (approveRequest env1 db shop caller1 projectId jobId itemId).2.1
        projectId jobId itemId =
      some { ex with approvedAt := some env1.now,
                     approvedByCustomerId := some caller1 } ∧
    (∀ caller2,
      isMemberOf db project caller2 = true →
      canEdit db project caller2 = true →
      cancelApprovalRequest
          (approveRequest env1 db shop caller1 projectId jobId itemId).2.1
          shop caller2 projectId jobId itemId =
        (.alreadyApprovedError,
          (approveRequest env1 db shop caller1 projectId jobId itemId).2.1)) ∧
    (∀ env2 caller3,
      env2.customersOk = true →
      isMemberOf db project caller3 = true →
      hasNATag (tagsOf env2 caller3) = false →
      approveRequest env2
          (approveRequest env1 db shop caller1 projectId jobId itemId).2.1
          shop caller3 projectId jobId itemId =
        (.okAlreadyApproved,
          (approveRequest env1 db shop caller1 projectId jobId itemId).2.1,
          [])) := by
  have hpid' : (projectId == "") = false := beq_eq_false_iff_ne.mpr hpid
  have hexp : (ex.projectId == projectId && ex.jobId == jobId &&
      ex.itemId == itemId) = true := by
    have h : db.approvals.find? (fun a =>
        a.projectId == projectId && a.jobId == jobId &&
          a.itemId == itemId) = some ex := hex
    simpa using List.find?_some h
  have hd1 : (approveRequest env1 db shop caller1 projectId jobId itemId).2.1 =
      { db with approvals := db.approvals.map (fun a =>
          if a.projectId == projectId && a.jobId == jobId &&
              a.itemId == itemId then
            { a with approvedAt := some env1.now,
                     approvedByCustomerId := some caller1 }
          else a) } := by
    cases hcfg : env1.emailConfigured <;>
      simp [approveRequest, hpid', hproj, hmem1, hcust1, hna1, hex, hun, hcfg]
  have hr1 : (approveRequest env1 db shop caller1 projectId jobId itemId).1 =
      .okDone := by
    cases hcfg : env1.emailConfigured <;>
      simp [approveRequest, hpid', hproj, hmem1, hcust1, hna1, hex, hun, hcfg]
  have hfind1 : findApproval
      (approveRequest env1 db shop caller1 projectId jobId itemId).2.1
      projectId jobId itemId =
      some { ex with approvedAt := some env1.now,
                     approvedByCustomerId := some caller1 } := by
    rw [hd1]
    show (db.approvals.map _).find? _ = _
    rw [find?_map_scope]
    · rw [show db.approvals.find? (fun a =>
          a.projectId == projectId && a.jobId == jobId &&
            a.itemId == itemId) = some ex from hex]
      dsimp only [Option.map]
      rw [if_pos hexp]
    · intro a
      dsimp only
      split <;> simp
  refine ⟨hr1, hfind1, ?_, ?_⟩
  · intro caller2 hm2 he2
    have hf := hfind1
    rw [hd1] at hf ⊢
    exact cancel_after_approved _ shop caller2 projectId jobId itemId project _
      hpid hproj hm2 he2 hf rfl
  · intro env2 caller3 hc3 hm3 hna3
    have hf := hfind1
    rw [hd1] at hf ⊢
    exact approve_after_approved env2 _ shop caller3 projectId jobId itemId
      project _ hpid hproj hm3 hc3 hna3 hf rfl

/-- Witness for C5: the viewer approves the fixture project-level request;
a later cancel attempt by the editor fails AlreadyApprovedError and leaves
the state unchanged. -/
theorem C5_approval_terminal_witness :
    cancelApprovalRequest
        (approveRequest wEnvOk wDbProjApproval "shop1" "viewer" "p1" "" "").2.1
        "shop1" "editor" "p1" "" "" =
      (.alreadyApprovedError,
        (approveRequest wEnvOk wDbProjApproval "shop1" "viewer" "p1" "" "").2.1)
    :=
  (C5_approval_terminal wEnvOk wDbProjApproval "shop1" "viewer" "p1" "" ""
    wProject wProjReq (by decide) (by decide) (by decide) (by rfl) (by decide)
    (by decide) (by decide)).2.2.1 "editor" (by decide) (by decide)

theorem getNextSortOrder_setPoCompany (db : DB) (projectId po co jobId : String) :
    getNextSortOrder (setProjectPoCompany db projectId po co) jobId =
      getNextSortOrder db jobId := rfl

theorem filter_map_of_fixed (l : List JobItem) (f : JobItem → JobItem)
    (p : JobItem → Bool) (hp : ∀ it, p (f it) = p it)
    (hf : ∀ it ∈ l, p it = true → f it = it) :
    (l.map f).filter p = l.filter p := by
  induction l with
  | nil => rfl
  | cons a l ih =>
    simp only [List.map_cons, List.filter_cons, hp a]
    cases hpa : p a with
    | true => rw [hf a (by simp) hpa, ih (fun it hit => hf it (by simp [hit]))]
    | false => exact ih (fun it hit => hf it (by simp [hit]))

theorem filter_append_none (l news : List JobItem) (p : JobItem → Bool)
    (hnews : ∀ it ∈ news, p it = false) :
    (l ++ news).filter p = l.filter p := by
  rw [List.filter_append]
  have : news.filter p = [] := by
    rw [List.filter_eq_nil_iff]
    intro a ha
    simp [hnews a ha]
  rw [this, List.append_nil]

/-- Behaviour of the add-mode update mapper on the id field. -/
theorem updateMapper_id (xid : String) (q ps : Int) (it : JobItem) :
    (if it.id == xid then { it with quantity := q, priceSnapshot := ps }
      else it).id = it.id := by
  split <;> rfl

/-- Behaviour of the add-mode update mapper on the jobId field. -/
theorem updateMapper_jobId (xid : String) (q ps : Int) (it : JobItem) :
    (if it.id == xid then { it with quantity := q, priceSnapshot := ps }
      else it).jobId = it.jobId := by
  split <;> rfl

/-- Behaviour of the add-mode update mapper on the variantId field. -/
theorem updateMapper_variantId (xid : String) (q ps : Int) (it : JobItem) :
    (if it.id == xid then { it with quantity := q, priceSnapshot := ps }
      else it).variantId = it.variantId := by
  split <;> rfl

theorem updateItemRow_itemsOf_of_ne (db : DB) (xid : String) (q ps : Int)
    (jid : String)
    (h : ∀ it ∈ db.items, it.jobId = jid → it.id ≠ xid) :
    (updateItemRow db xid q ps).items.filter (fun it => it.jobId == jid) =
      db.items.filter (fun it => it.jobId == jid) := by
  apply filter_map_of_fixed
  · intro it
    rw [updateMapper_jobId]
  · intro it hit hjid
    have hne2 : (it.id == xid) = false :=
      beq_eq_false_iff_ne.mpr (h it hit (by simpa using hjid))
    simp [hne2]

/-- The add-mode loop never touches rows of a different job, provided the
ids of that job's rows are disjoint from the target's rows and from the
fresh ids the loop may mint. -/
theorem applyAdd_itemsOf_ne (t jid : String) (hne : jid ≠ t)
    (lines : List CartLine) (db : DB) (n i : Nat) (g : Nat → String)
    (hsep : ∀ r ∈ db.items, r.jobId = jid → ∀ s ∈ db.items, s.jobId = t →
      r.id ≠ s.id)
    (hfresh : ∀ m, i ≤ m → m < i + lines.length →
      ∀ r ∈ db.items, r.jobId = jid → r.id ≠ g m) :
    (applyAdd db t lines n g i).items.filter (fun it => it.jobId == jid) =
      db.items.filter (fun it => it.jobId == jid) := by
  induction lines generalizing db n i with
  | nil => rfl
  | cons line rest ih =>
    rw [applyAdd]
    cases hfind : db.items.find? (fun it =>
        it.jobId == t && it.variantId == line.variantId) with
    | some ex =>
      dsimp only
      have hexmem : ex ∈ db.items := List.mem_of_find?_eq_some hfind
      have hexp := List.find?_some hfind
      have hexjob : ex.jobId = t := by
        simp only [Bool.and_eq_true, beq_iff_eq] at hexp
        exact hexp.1
      have step : (updateItemRow db ex.id (ex.quantity + line.quantity)
          line.priceSnapshot).items.filter (fun it => it.jobId == jid) =
          db.items.filter (fun it => it.jobId == jid) :=
        updateItemRow_itemsOf_of_ne db ex.id _ _ jid
          (fun it hit hjid => hsep it hit hjid ex hexmem hexjob)
      rw [ih (updateItemRow db ex.id (ex.quantity + line.quantity)
        line.priceSnapshot) n i ?_ ?_]
      · exact step
      · intro r hr hrjid s hs hst
        simp only [updateItemRow, List.mem_map] at hr hs
        obtain ⟨r0, hr0, rfl⟩ := hr
        obtain ⟨s0, hs0, rfl⟩ := hs
        rw [updateMapper_jobId] at hrjid hst
        rw [updateMapper_id, updateMapper_id]
        exact hsep r0 hr0 hrjid s0 hs0 hst
      · intro m him hm r hr hrjid
        simp only [updateItemRow, List.mem_map] at hr
        obtain ⟨r0, hr0, rfl⟩ := hr
        rw [updateMapper_jobId] at hrjid
        rw [updateMapper_id]
        refine hfresh m him ?_ r0 hr0 hrjid
        simp only [List.length_cons]
        omega
    | none =>
      dsimp only
      rw [ih { db with items := db.items ++
          [{ id := g i, jobId := t, variantId := line.variantId,
             quantity := line.quantity, priceSnapshot := line.priceSnapshot,
             sortOrder := n }] } (n + 1) (i + 1) ?_ ?_]
      · refine filter_append_none _ _ _ ?_
        intro it hit
        simp only [List.mem_singleton] at hit
        subst hit
        exact beq_eq_false_iff_ne.mpr (fun h => hne h.symm)
      · intro r hr hrjid s hs hst
        simp only [List.mem_append, List.mem_singleton] at hr hs
        rcases hr with hr | rfl
        · rcases hs with hs | rfl
          · exact hsep r hr hrjid s hs hst
          · refine hfresh i (Nat.le_refl i) ?_ r hr hrjid
            simp only [List.length_cons]
            omega
        · exact absurd hrjid (fun h => hne h.symm)
      · intro m him hm r hr hrjid
        simp only [List.mem_append, List.mem_singleton] at hr
        rcases hr with hr | rfl
        · refine hfresh m (Nat.le_of_succ_le him) ?_ r hr hrjid
          simp only [List.length_cons] at hm ⊢
          omega
        · exact absurd hrjid (fun h => hne h.symm)

theorem applyReplace_itemsOf_ne (db : DB) (t jid : String) (hne : jid ≠ t)
    (lines : List CartLine) (gen : Nat → String) (i : Nat) :
    (applyReplace db t lines gen i).items.filter (fun it => it.jobId == jid) =
      db.items.filter (fun it => it.jobId == jid) := by
  show ((db.items.filter (fun it => it.jobId != t)) ++ _).filter _ = _
  rw [filter_append_none]
  · rw [List.filter_filter]
    apply List.filter_congr
    intro a _
    cases haj : a.jobId == jid with
    | false => simp
    | true =>
      have : a.jobId = jid := by simpa using haj
      simp [this, hne]
  · intro it hit
    simp only [List.mem_map] at hit
    obtain ⟨pr, _, rfl⟩ := hit
    exact beq_eq_false_iff_ne.mpr (fun h => hne h.symm)

theorem mem_enumFrom_bounds {α : Type} (l : List α) (n : Nat) (pr : Nat × α)
    (h : pr ∈ List.enumFrom n l) :
    n ≤ pr.1 ∧ pr.1 < n + l.length ∧ pr.2 ∈ l := by
  induction l generalizing n with
  | nil => simp [List.enumFrom] at h
  | cons a l ih =>
    simp only [List.enumFrom, List.mem_cons] at h
    rcases h with rfl | h
    · simp
    · obtain ⟨h1, h2, h3⟩ := ih (n + 1) h
      refine ⟨by omega, ?_, by simp [h3]⟩
      simp only [List.length_cons]
      omega

theorem enumFrom_map_snd_comp {α β : Type} (l : List α) (f : α → β) :
    ∀ n, (List.enumFrom n l).map (fun pr => f pr.2) = l.map f := by
  induction l with
  | nil => intro n; rfl
  | cons a l ih => intro n; simp only [List.enumFrom, List.map_cons, ih]

theorem cowDb_items (db : DB) (projectId po co : String) (job : Job)
    (gen : Nat → String) :
    (cowDb db projectId po co job gen).items =
      db.items ++ dupItemsFor (itemsOf db job.id) (gen 0) gen 1 := rfl

theorem cowDb_jobs (db : DB) (projectId po co : String) (job : Job)
    (gen : Nat → String) :
    (cowDb db projectId po co job gen).jobs =
      db.jobs ++ [{ id := gen 0, projectId := projectId,
                    name := job.name ++ " (Copy)", isLocked := false,
                    sortOrder := getNextJobSortOrder db projectId }] := rfl

theorem getNextJobSortOrder_setPoCompany (db : DB)
    (projectId po co pid2 : String) :
    getNextJobSortOrder (setProjectPoCompany db projectId po co) pid2 =
      getNextJobSortOrder db pid2 := rfl

/-- C1: saving with mode=existingJob into a locked job creates a new
unlocked job named "<original> (Copy)" at the next job sortOrder whose
initial item set duplicates the original's exactly (same variantIds,
quantities, priceSnapshots, per-item sortOrders), returns copied=true with
the copy's id, applies the whole quantity-mode mutation to the copy, and
leaves the original job's row and items — indeed every job but the copy —
unchanged. -/
theorem C1_copy_on_write (db : DB) (shop customerId : String)
    (payload : SavePayload) (gen : Nat → String) (project : Project)
    (job : Job)
    (hitems : (normalizeItems payload.items).isEmpty = false)
    (hpo : strTrim payload.poNumber ≠ "")
    (hco : strTrim payload.companyName ≠ "")
    (hmode : payload.mode = "existingJob")
    (hpid : payload.projectId ≠ "")
    (hjid : payload.jobId ≠ "")
    (hproj : findProjectAsMember db payload.projectId shop customerId =
      some project)
    (hedit : canEdit db project customerId = true)
    (hjob : findJob db payload.jobId project.id = some job)
    (hlock : jobIsLocked db job = true)
    (hg0items : ∀ r ∈ db.items, r.jobId ≠ gen 0)
    (hgenids : ∀ n, n ≤ (itemsOf db job.id).length +
        (normalizeItems payload.items).length →
      ∀ r ∈ db.items, r.id ≠ gen n) :
    (saveCart db shop customerId payload gen).1 =
      .ok project.id (gen 0) (some true) ∧
    (saveCart db shop customerId payload gen).2.jobs =
      db.jobs ++ [{ id := gen 0, projectId := project.id,
                    name := job.name ++ " (Copy)", isLocked := false,
                    sortOrder := getNextJobSortOrder db project.id }] ∧
    (dupItemsFor (itemsOf db job.id) (gen 0) gen 1).map itemData =
      (itemsOf db job.id).map itemData ∧
    (∀ jid, jid ≠ gen 0 →
      itemsOf (saveCart db shop customerId payload gen).2 jid =
        itemsOf db jid) ∧
    (saveCart db shop customerId payload gen).2.items =
      (if (payload.quantityMode == "replace") = true then
        applyReplace (cowDb db project.id (strTrim payload.poNumber)
            (strTrim payload.companyName) job gen) (gen 0)
          (normalizeItems payload.items) gen (1 + (itemsOf db job.id).length)
      else
        applyAdd (cowDb db project.id (strTrim payload.poNumber)
            (strTrim payload.companyName) job gen) (gen 0)
          (normalizeItems payload.items)
          (getNextSortOrder (cowDb db project.id (strTrim payload.poNumber)
            (strTrim payload.companyName) job gen) (gen 0)) gen
          (1 + (itemsOf db job.id).length)).items := by
  have hpo' : (strTrim payload.poNumber == "") = false :=
    beq_eq_false_iff_ne.mpr hpo
  have hco' : (strTrim payload.companyName == "") = false :=
    beq_eq_false_iff_ne.mpr hco
  have hpid' : (payload.projectId == "") = false := beq_eq_false_iff_ne.mpr hpid
  have hjid' : (payload.jobId == "") = false := beq_eq_false_iff_ne.mpr hjid
  have hE : (saveCart db shop customerId payload gen).2.items =
      (if (payload.quantityMode == "replace") = true then
        applyReplace (cowDb db project.id (strTrim payload.poNumber)
            (strTrim payload.companyName) job gen) (gen 0)
          (normalizeItems payload.items) gen (1 + (itemsOf db job.id).length)
      else
        applyAdd (cowDb db project.id (strTrim payload.poNumber)
            (strTrim payload.companyName) job gen) (gen 0)
          (normalizeItems payload.items)
          (getNextSortOrder (cowDb db project.id (strTrim payload.poNumber)
            (strTrim payload.companyName) job gen) (gen 0)) gen
          (1 + (itemsOf db job.id).length)).items := by
    cases hq : payload.quantityMode == "replace" <;>
      simp [saveCart, cowDb, hitems, hpo', hco', hmode, hpid', hjid', hproj,
        hedit, hjob, hlock, hq, deleteJobLevelApprovals_items]
  have hdup : (cowDb db project.id (strTrim payload.poNumber)
      (strTrim payload.companyName) job gen).items =
      db.items ++ dupItemsFor (itemsOf db job.id) (gen 0) gen 1 :=
    cowDb_items db project.id (strTrim payload.poNumber)
      (strTrim payload.companyName) job gen
  refine ⟨?_, ?_, ?_, ?_, hE⟩
  · cases hq : payload.quantityMode == "replace" <;>
      simp [saveCart, hitems, hpo', hco', hmode, hpid', hjid', hproj, hedit,
        hjob, hlock, hq]
  · cases hq : payload.quantityMode == "replace" <;>
      simp [saveCart, hitems, hpo', hco', hmode, hpid', hjid', hproj, hedit,
        hjob, hlock, hq, deleteJobLevelApprovals_jobs, applyAdd_jobs,
        applyReplace_jobs, getNextJobSortOrder_setPoCompany,
        setProjectPoCompany_jobs]
  · simp only [dupItemsFor, List.map_map, List.enum]
    exact enumFrom_map_snd_comp (itemsOf db job.id) itemData 0
  · intro jid hjidne
    have hdupjob : ∀ it ∈ dupItemsFor (itemsOf db job.id) (gen 0) gen 1,
        (it.jobId == jid) = false := by
      intro it hit
      simp only [dupItemsFor, List.mem_map] at hit
      obtain ⟨pr, _, rfl⟩ := hit
      exact beq_eq_false_iff_ne.mpr (fun h => hjidne h.symm)
    show (saveCart db shop customerId payload gen).2.items.filter
        (fun it => it.jobId == jid) =
      db.items.filter (fun it => it.jobId == jid)
    rw [hE]
    cases hq : payload.quantityMode == "replace" with
    | true =>
      rw [if_pos rfl]
      rw [applyReplace_itemsOf_ne _ _ _ hjidne]
      rw [hdup, filter_append_none _ _ _ hdupjob]
    | false =>
      rw [if_neg (by simp)]
      rw [applyAdd_itemsOf_ne (gen 0) jid hjidne _ _ _ _ _ ?_ ?_]
      · rw [hdup, filter_append_none _ _ _ hdupjob]
      · intro r hr hrjid s hs hst
        rw [hdup] at hr hs
        simp only [List.mem_append] at hr hs
        rcases hr with hr | hrdup
        · rcases hs with hs | hsdup
          · exact absurd hst (hg0items s hs)
          · simp only [dupItemsFor, List.mem_map] at hsdup
            obtain ⟨pr, hpr, rfl⟩ := hsdup
            obtain ⟨-, hlt, -⟩ := mem_enumFrom_bounds _ 0 pr
              (by simpa [List.enum] using hpr)
            exact hgenids (1 + pr.1) (by omega) r hr
        · simp only [dupItemsFor, List.mem_map] at hrdup
          obtain ⟨pr, hpr, rfl⟩ := hrdup
          exact absurd hrjid (fun h => hjidne h.symm)
      · intro m him hm r hr hrjid
        rw [hdup] at hr
        simp only [List.mem_append] at hr
        rcases hr with hr | hrdup
        · exact hgenids m (by omega) r hr
        · simp only [dupItemsFor, List.mem_map] at hrdup
          obtain ⟨pr, hpr, rfl⟩ := hrdup
          exact absurd hrjid (fun h => hjidne h.symm)

/-- Witness for C1: saving into the locked fixture job returns copied=true
with the fresh id and leaves the locked job's items untouched. -/
theorem C1_copy_on_write_witness :
    (saveCart wDb "shop1" "editor" wPayloadL wGen).1 =
      .ok "p1" (wGen 0) (some true) ∧
    itemsOf (saveCart wDb "shop1" "editor" wPayloadL wGen).2 "jL" =
      itemsOf wDb "jL" := by
  have h := C1_copy_on_write wDb "shop1" "editor" wPayloadL wGen wProject wJobL
    (by decide) (by decide) (by decide) (by decide) (by decide) (by decide)
    (by decide) (by decide) (by decide) (by decide) (by decide) (by decide)
  exact ⟨h.1, h.2.2.2.1 "jL" (by decide)⟩

theorem sortIdx_eq_none_of_not_mem (ids : List String) (x : String)
    (h : x ∉ ids) : sortIdx ids x = none := by
  induction ids with
  | nil => rfl
  | cons i rest ih =>
    have hne : (i == x) = false :=
      beq_eq_false_iff_ne.mpr (fun he => h (he ▸ List.mem_cons_self i rest))
    simp [sortIdx, hne, ih (fun hx => h (List.mem_cons_of_mem i hx))]

theorem sortIdx_isSome_of_mem (ids : List String) (x : String) (h : x ∈ ids) :
    (sortIdx ids x).isSome = true := by
  induction ids with
  | nil => simp at h
  | cons i rest ih =>
    simp only [sortIdx]
    cases hbe : (i == x) with
    | true => simp
    | false =>
      have hx : x ∈ rest := by
        rcases List.mem_cons.mp h with rfl | hx
        · simp at hbe
        · exact hx
      have := ih hx
      cases hr : sortIdx rest x with
      | none => rw [hr] at this; simp at this
      | some m => simp

theorem sortIdx_get (ids : List String) (x : String) :
    ∀ m, sortIdx ids x = some m →
      ∃ hm : m < ids.length, ids.get ⟨m, hm⟩ = x := by
  induction ids with
  | nil => intro m h; simp [sortIdx] at h
  | cons i rest ih =>
    intro m h
    simp only [sortIdx] at h
    by_cases hbe : (i == x) = true
    · rw [if_pos hbe] at h
      have hm0 : m = 0 := by
        injection h with h
        omega
      subst hm0
      exact ⟨by simp, by simpa using hbe⟩
    · rw [if_neg hbe] at h
      cases hr : sortIdx rest x with
      | none => rw [hr] at h; simp at h
      | some m0 =>
        rw [hr] at h
        simp only [Option.map_some'] at h
        injection h with h
        subst h
        obtain ⟨hm0, hget⟩ := ih m0 hr
        refine ⟨by simp only [List.length_cons]; omega, ?_⟩
        exact hget

theorem sortIdx_self_map (ids : List String) (hnd : ids.Nodup) :
    ∀ k, ids.map (fun x => k + (sortIdx ids x).getD 0 + 1) =
      List.range' (k + 1) ids.length := by
  induction ids with
  | nil => intro k; rfl
  | cons i rest ih =>
    intro k
    have hni : i ∉ rest := (List.nodup_cons.mp hnd).1
    have hrest : rest.Nodup := (List.nodup_cons.mp hnd).2
    simp only [List.map_cons, List.length_cons]
    have hhead : k + (sortIdx (i :: rest) i).getD 0 + 1 = k + 1 := by
      simp [sortIdx]
    have htail : rest.map (fun x => k + (sortIdx (i :: rest) x).getD 0 + 1) =
        rest.map (fun x => (k + 1) + (sortIdx rest x).getD 0 + 1) := by
      apply List.map_congr_left
      intro x hx
      have hne : (i == x) = false :=
        beq_eq_false_iff_ne.mpr (fun he => hni (he ▸ hx))
      have hs := sortIdx_isSome_of_mem rest x hx
      cases hr : sortIdx rest x with
      | none => rw [hr] at hs; simp at hs
      | some m =>
        simp only [sortIdx, hne, Bool.false_eq_true, if_false, hr,
          Option.map_some', Option.getD_some]
        omega
    rw [hhead, htail, ih hrest (k + 1)]
    rw [List.range'_succ]

theorem keys_range_ids {α : Type} (key : α → Nat) (getId : α → String)
    (P : List String) :
    ∀ (s : List α) (j : Nat),
    (∀ x ∈ s, ∃ m, sortIdx P (getId x) = some m ∧ key x = m + 1) →
    s.map key = List.range' (j + 1) s.length →
    s.map getId = (P.drop j).take s.length := by
  intro s
  induction s with
  | nil => intro j _ _; simp
  | cons x s2 ih =>
    intro j hchar hkeys
    simp only [List.map_cons, List.length_cons] at hkeys
    rw [List.range'_succ (j + 1) s2.length 1] at hkeys
    injection hkeys with hkx hks
    obtain ⟨m, hm, hk⟩ := hchar x (by simp)
    have hmj : m = j := by omega
    subst hmj
    obtain ⟨hmP, hget⟩ := sortIdx_get P (getId x) m hm
    have hdrop : P.drop m = P.get ⟨m, hmP⟩ :: P.drop (m + 1) := by
      rw [List.get_eq_getElem]
      exact List.drop_eq_getElem_cons hmP
    simp only [List.map_cons, List.length_cons, hdrop, List.take_succ_cons,
      List.cons.injEq]
    refine ⟨hget.symm, ?_⟩
    exact ih (m + 1) (fun y hy => hchar y (by simp [hy])) hks

theorem mergeSort_reads_perm {α : Type} (l : List α) (key : α → Nat)
    (getId : α → String) (P : List String) (hnd : P.Nodup)
    (hperm : (l.map getId).Perm P)
    (hchar : ∀ x ∈ l, ∃ m, sortIdx P (getId x) = some m ∧ key x = m + 1) :
    (l.mergeSort (fun a b => decide (key a ≤ key b))).map getId = P := by
  have hsp : (l.mergeSort (fun a b => decide (key a ≤ key b))).Perm l :=
    List.mergeSort_perm l _
  have hsorted : (l.mergeSort (fun a b => decide (key a ≤ key b))).Pairwise
      (fun a b => key a ≤ key b) := by
    have h := @List.sorted_mergeSort α (fun a b => decide (key a ≤ key b))
      (fun a b c hab hbc => by simp at hab hbc ⊢; omega)
      (fun a b => by simp [Nat.le_total]) l
    exact h.imp (fun hab => by simpa using hab)
  have hkeymap : l.map key = (l.map getId).map (fun t =>
      0 + (sortIdx P t).getD 0 + 1) := by
    rw [List.map_map]
    apply List.map_congr_left
    intro x hx
    obtain ⟨m, hm, hk⟩ := hchar x hx
    simp only [Function.comp, hm, Option.getD_some]
    omega
  have hPmap : P.map (fun t => 0 + (sortIdx P t).getD 0 + 1) =
      List.range' 1 P.length := by
    simpa using sortIdx_self_map P hnd 0
  have hkeysperm : ((l.mergeSort (fun a b =>
      decide (key a ≤ key b))).map key).Perm (List.range' 1 P.length) := by
    rw [← hPmap]
    exact (hsp.map key).trans (hkeymap ▸ hperm.map _)
  have hkeyssorted : ((l.mergeSort (fun a b =>
      decide (key a ≤ key b))).map key).Pairwise (· ≤ ·) :=
    (List.pairwise_map).mpr hsorted
  have hrangesorted : (List.range' 1 P.length).Pairwise
      (fun a b : Nat => a ≤ b) :=
    (List.pairwise_lt_range' 1 P.length).imp (fun h => Nat.le_of_lt h)
  haveI : IsAntisymm Nat (· ≤ ·) := ⟨fun _ _ => Nat.le_antisymm⟩
  have hkeys : (l.mergeSort (fun a b => decide (key a ≤ key b))).map key =
      List.range' 1 P.length :=
    List.eq_of_perm_of_sorted hkeysperm hkeyssorted hrangesorted
  have hlenl : l.length = P.length := by
    have := hperm.length_eq
    simpa using this
  have hlens : (l.mergeSort (fun a b => decide (key a ≤ key b))).length =
      P.length := by
    simpa [hsp.length_eq] using hlenl
  have hcharS : ∀ x ∈ l.mergeSort (fun a b => decide (key a ≤ key b)),
      ∃ m, sortIdx P (getId x) = some m ∧ key x = m + 1 :=
    fun x hx => hchar x (hsp.mem_iff.mp hx)
  have hfin := keys_range_ids key getId P
    (l.mergeSort (fun a b => decide (key a ≤ key b))) 0 hcharS
    (by rw [hkeys, hlens])
  rw [hfin, hlens, List.drop_zero, List.take_length]

theorem applyJobSortUpdates_eq :
    ∀ (ids : List String), ids.Nodup →
    ∀ (jobs : List Job) (k : Nat),
    applyJobSortUpdates jobs ids k = jobs.map (fun j =>
      match sortIdx ids j.id with
      | some m => { j with sortOrder := k + m + 1 }
      | none => j) := by
  intro ids
  induction ids with
  | nil =>
    intro _ jobs k
    simp [applyJobSortUpdates, sortIdx]
  | cons i rest ih =>
    intro hnd jobs k
    have hni : i ∉ rest := (List.nodup_cons.mp hnd).1
    have hrest : rest.Nodup := (List.nodup_cons.mp hnd).2
    simp only [applyJobSortUpdates]
    rw [ih hrest _ (k + 1), List.map_map]
    apply List.map_congr_left
    intro j _
    simp only [Function.comp]
    by_cases hji : (j.id == i) = true
    · have hij : j.id = i := by simpa using hji
      rw [if_pos hji]
      have hrnone : sortIdx rest i = none := sortIdx_eq_none_of_not_mem rest i hni
      have hcons : sortIdx (i :: rest) i = some 0 := by
        simp [sortIdx]
      simp [hij, hrnone, hcons]
    · have hij : j.id ≠ i := by simpa using hji
      rw [if_neg hji]
      have hcons : sortIdx (i :: rest) j.id = (sortIdx rest j.id).map
          (fun n => n + 1) := by
        have : (i == j.id) = false := beq_eq_false_iff_ne.mpr (fun h => hij h.symm)
        simp [sortIdx, this]
      cases hr : sortIdx rest j.id with
      | none => simp [hcons, hr]
      | some m =>
        simp only [hcons, hr, Option.map_some']
        have : k + 1 + m + 1 = k + (m + 1) + 1 := by omega
        rw [this]

theorem applyItemSortUpdates_eq :
    ∀ (ids : List String), ids.Nodup →
    ∀ (items : List JobItem) (k : Nat),
    applyItemSortUpdates items ids k = items.map (fun it =>
      match sortIdx ids it.id with
      | some m => { it with sortOrder := k + m + 1 }
      | none => it) := by
  intro ids
  induction ids with
  | nil =>
    intro _ items k
    simp [applyItemSortUpdates, sortIdx]
  | cons i rest ih =>
    intro hnd items k
    have hni : i ∉ rest := (List.nodup_cons.mp hnd).1
    have hrest : rest.Nodup := (List.nodup_cons.mp hnd).2
    simp only [applyItemSortUpdates]
    rw [ih hrest _ (k + 1), List.map_map]
    apply List.map_congr_left
    intro it _
    simp only [Function.comp]
    by_cases hji : (it.id == i) = true
    · have hij : it.id = i := by simpa using hji
      rw [if_pos hji]
      have hrnone : sortIdx rest i = none := sortIdx_eq_none_of_not_mem rest i hni
      have hcons : sortIdx (i :: rest) i = some 0 := by
        simp [sortIdx]
      simp [hij, hrnone, hcons]
    · have hij : it.id ≠ i := by simpa using hji
      rw [if_neg hji]
      have hcons : sortIdx (i :: rest) it.id = (sortIdx rest it.id).map
          (fun n => n + 1) := by
        have : (i == it.id) = false := beq_eq_false_iff_ne.mpr (fun h => hij h.symm)
        simp [sortIdx, this]
      cases hr : sortIdx rest it.id with
      | none => simp [hcons, hr]
      | some m =>
        simp only [hcons, hr, Option.map_some']
        have : k + 1 + m + 1 = k + (m + 1) + 1 := by omega
        rw [this]

/-- C3 (amended): a reorder whose id list is a full permutation of the
collection is applied, and reading the collection ordered by sortOrder
ascending afterwards yields exactly the submitted list (for both
reorder-jobs and reorder-items); reorder-jobs rejects atomically (with
InvalidOrder and no change) any list whose ids do not all resolve to
distinct jobs of the project — but a proper subset of the jobs passes that
check, and reorder-items validates membership not at all, so the claimed
set-equality rejection does not hold. -/
theorem C3_reorder_permutation (db : DB)
    (shop customerId projectId jobId : String)
    (jobIds itemIds : List String) (project : Project)
    (hproj : findProject db projectId shop = some project)
    (hedit : canEdit db project customerId = true) :
    ((db.jobs.map (fun j => j.id)).Nodup →
      jobIds.Perm ((jobsOf db projectId).map (fun j => j.id)) →
      (reorderJobs db shop customerId projectId jobIds).1 = .noContent ∧
      (readJobsOrdered (reorderJobs db shop customerId projectId jobIds).2
        projectId).map (fun j => j.id) = jobIds) ∧
    ((db.items.map (fun it => it.id)).Nodup → jobId ≠ "" →
      itemIds.Perm ((itemsOf db jobId).map (fun it => it.id)) →
      (reorderItems db shop customerId projectId jobId itemIds).1 =
        .noContent ∧
      (readItemsOrdered (reorderItems db shop customerId projectId jobId
        itemIds).2 jobId).map (fun it => it.id) = itemIds) ∧
    (jobIds ≠ [] →
      (db.jobs.filter (fun j =>
        jobIds.contains j.id && j.projectId == projectId)).length ≠
          jobIds.length →
      reorderJobs db shop customerId projectId jobIds = (.invalidOrder, db)) := by
  refine ⟨?_, ?_, ?_⟩
  · intro hnd hperm
    have hidsnd : ((jobsOf db projectId).map (fun j => j.id)).Nodup :=
      hnd.sublist ((List.filter_sublist db.jobs).map (fun j => j.id))
    have hPnd : jobIds.Nodup := hperm.nodup_iff.mpr hidsnd
    by_cases hempty : jobIds = []
    · subst hempty
      have h0 : jobsOf db projectId = [] :=
        List.map_eq_nil_iff.mp (hperm.symm.eq_nil)
      constructor
      · simp [reorderJobs, hproj, hedit]
      · simp [reorderJobs, hproj, hedit, readJobsOrdered, h0]
    · have hne : jobIds.isEmpty = false := by
        cases jobIds with
        | nil => exact absurd rfl hempty
        | cons a l => rfl
      have hmatch : db.jobs.filter (fun j =>
          decide (j.id ∈ jobIds) && j.projectId == projectId) =
          jobsOf db projectId := by
        apply List.filter_congr
        intro j hj
        cases hpj : (j.projectId == projectId) with
        | false => simp [hpj]
        | true =>
          have hmem : j ∈ jobsOf db projectId := by
            simp only [jobsOf, List.mem_filter]
            exact ⟨hj, hpj⟩
          have hid : j.id ∈ jobIds :=
            hperm.mem_iff.mpr (List.mem_map_of_mem _ hmem)
          simp [hpj, hid]
      have hlen2 : (db.jobs.filter (fun j =>
          decide (j.id ∈ jobIds) && j.projectId == projectId)).length =
          jobIds.length := by
        rw [hmatch]
        have h1 := hperm.length_eq
        rw [List.length_map] at h1
        exact h1.symm
      have hres : (reorderJobs db shop customerId projectId jobIds).2 =
          { db with jobs := applyJobSortUpdates db.jobs jobIds 0 } := by
        simp [reorderJobs, hproj, hedit, hne, hlen2]
      refine ⟨by simp [reorderJobs, hproj, hedit, hne, hlen2], ?_⟩
      rw [hres, applyJobSortUpdates_eq jobIds hPnd db.jobs 0]
      have hpres : ∀ j : Job, ((fun j : Job => match sortIdx jobIds j.id with
          | some m => { j with sortOrder := 0 + m + 1 }
          | none => j) j).projectId = j.projectId := by
        intro j
        cases h : sortIdx jobIds j.id <;> simp [h]
      have hpid : ∀ j : Job, ((fun j : Job => match sortIdx jobIds j.id with
          | some m => { j with sortOrder := 0 + m + 1 }
          | none => j) j).id = j.id := by
        intro j
        cases h : sortIdx jobIds j.id <;> simp [h]
      have hjobsOf : jobsOf { db with jobs := db.jobs.map (fun j =>
          match sortIdx jobIds j.id with
          | some m => { j with sortOrder := 0 + m + 1 }
          | none => j) } projectId =
          (jobsOf db projectId).map (fun j =>
          match sortIdx jobIds j.id with
          | some m => { j with sortOrder := 0 + m + 1 }
          | none => j) := by
        show (db.jobs.map _).filter _ = _
        rw [List.filter_map]
        congr 1
        apply List.filter_congr
        intro j _
        simp only [Function.comp]
        rw [hpres j]
      show ((jobsOf _ projectId).mergeSort _).map _ = _
      rw [hjobsOf]
      refine mergeSort_reads_perm _ (fun j : Job => j.sortOrder)
        (fun j : Job => j.id) jobIds hPnd ?_ ?_
      · rw [List.map_map]
        have : (jobsOf db projectId).map ((fun j : Job => j.id) ∘ (fun j =>
            match sortIdx jobIds j.id with
            | some m => { j with sortOrder := 0 + m + 1 }
            | none => j)) = (jobsOf db projectId).map (fun j => j.id) := by
          apply List.map_congr_left
          intro j _
          simp only [Function.comp]
          exact hpid j
        rw [this]
        exact hperm.symm
      · intro x hx
        obtain ⟨j, hj, rfl⟩ := List.mem_map.mp hx
        have hidm : j.id ∈ jobIds :=
          hperm.mem_iff.mpr (List.mem_map_of_mem _ hj)
        have hs := sortIdx_isSome_of_mem jobIds j.id hidm
        cases hr : sortIdx jobIds j.id with
        | none => rw [hr] at hs; simp at hs
        | some m =>
          refine ⟨m, ?_, ?_⟩
          · simp [hr]
          · simp [hr]
  · intro hnd hjid hperm
    have hidsnd : ((itemsOf db jobId).map (fun it => it.id)).Nodup :=
      hnd.sublist ((List.filter_sublist db.items).map (fun it => it.id))
    have hPnd : itemIds.Nodup := hperm.nodup_iff.mpr hidsnd
    have hjid2 : (jobId == "") = false := beq_eq_false_iff_ne.mpr hjid
    by_cases hempty : itemIds = []
    · subst hempty
      have h0 : itemsOf db jobId = [] :=
        List.map_eq_nil_iff.mp (hperm.symm.eq_nil)
      constructor
      · simp [reorderItems, hproj, hedit]
      · simp [reorderItems, hproj, hedit, readItemsOrdered, h0]
    · have hne : itemIds.isEmpty = false := by
        cases itemIds with
        | nil => exact absurd rfl hempty
        | cons a l => rfl
      have hall : (itemIds.all (fun i =>
          db.items.any (fun it => it.id == i))) = true := by
        rw [List.all_eq_true]
        intro i hi
        have := hperm.mem_iff.mp hi
        simp only [List.mem_map] at this
        obtain ⟨it, hit, rfl⟩ := this
        have hmem : it ∈ db.items := List.mem_of_mem_filter hit
        rw [List.any_eq_true]
        exact ⟨it, hmem, by simp⟩
      have hres : (reorderItems db shop customerId projectId jobId itemIds).2 =
          { db with items := applyItemSortUpdates db.items itemIds 0 } := by
        simp [reorderItems, hproj, hedit, hjid2, hne, hall]
      refine ⟨by simp [reorderItems, hproj, hedit, hjid2, hne, hall], ?_⟩
      rw [hres, applyItemSortUpdates_eq itemIds hPnd db.items 0]
      have hpres : ∀ it : JobItem, ((fun it : JobItem => match sortIdx itemIds it.id with
          | some m => { it with sortOrder := 0 + m + 1 }
          | none => it) it).jobId = it.jobId := by
        intro it
        cases h : sortIdx itemIds it.id <;> simp [h]
      have hpid : ∀ it : JobItem, ((fun it : JobItem => match sortIdx itemIds it.id with
          | some m => { it with sortOrder := 0 + m + 1 }
          | none => it) it).id = it.id := by
        intro it
        cases h : sortIdx itemIds it.id <;> simp [h]
      have hitemsOf : itemsOf { db with items := db.items.map (fun it =>
          match sortIdx itemIds it.id with
          | some m => { it with sortOrder := 0 + m + 1 }
          | none => it) } jobId =
          (itemsOf db jobId).map (fun it =>
          match sortIdx itemIds it.id with
          | some m => { it with sortOrder := 0 + m + 1 }
          | none => it) := by
        show (db.items.map _).filter _ = _
        rw [List.filter_map]
        congr 1
        apply List.filter_congr
        intro it _
        simp only [Function.comp]
        rw [hpres it]
      show ((itemsOf _ jobId).mergeSort _).map _ = _
      rw [hitemsOf]
      refine mergeSort_reads_perm _ (fun it : JobItem => it.sortOrder)
        (fun it : JobItem => it.id) itemIds hPnd ?_ ?_
      · rw [List.map_map]
        have : (itemsOf db jobId).map ((fun it : JobItem => it.id) ∘ (fun it =>
            match sortIdx itemIds it.id with
            | some m => { it with sortOrder := 0 + m + 1 }
            | none => it)) = (itemsOf db jobId).map (fun it => it.id) := by
          apply List.map_congr_left
          intro it _
          simp only [Function.comp]
          exact hpid it
        rw [this]
        exact hperm.symm
      · intro x hx
        obtain ⟨it, hit, rfl⟩ := List.mem_map.mp hx
        have hidm : it.id ∈ itemIds :=
          hperm.mem_iff.mpr (List.mem_map_of_mem _ hit)
        have hs := sortIdx_isSome_of_mem itemIds it.id hidm
        cases hr : sortIdx itemIds it.id with
        | none => rw [hr] at hs; simp at hs
        | some m =>
          refine ⟨m, ?_, ?_⟩
          · simp [hr]
          · simp [hr]
  · intro hempty hlen
    have hne : jobIds.isEmpty = false := by
      cases jobIds with
      | nil => exact absurd rfl hempty
      | cons a l => rfl
    have hguard : (db.jobs.filter (fun j =>
        decide (j.id ∈ jobIds) && j.projectId == projectId)).length ≠
        jobIds.length := by
      intro h
      apply hlen
      simpa using h
    simp [reorderJobs, hproj, hedit, hne, hguard]

/-- Witness for C3's amended statement: swapping the two fixture jobs
succeeds and the subsequent sortOrder-ascending read returns the submitted
order. -/
theorem C3_reorder_permutation_witness :
    (reorderJobs wDb "shop1" "editor" "p1" ["jU", "jL"]).1 = .noContent ∧
    (readJobsOrdered (reorderJobs wDb "shop1" "editor" "p1" ["jU", "jL"]).2
      "p1").map (fun j => j.id) = ["jU", "jL"] :=
  (C3_reorder_permutation wDb "shop1" "editor" "p1" "" ["jU", "jL"] []
    wProject (by decide) (by decide)).1 (by decide) (by decide)

/-- Counterexample to C3 as stated: submitting the proper subset ["jU"] of
the project's two jobs does not fail with InvalidOrder — it succeeds (204)
and renumbers jU's sortOrder from 2 to 1, leaving both jobs at
sortOrder 1. -/
theorem C3_counterexample :
    (reorderJobs wDb "shop1" "editor" "p1" ["jU"]).1 = .noContent ∧
    (reorderJobs wDb "shop1" "editor" "p1" ["jU"]).2.jobs.map
      (fun j => j.sortOrder) = [1, 1] := by
  decide

/-- One merge step of the add loop: a line whose variantId already has a
row updates that row in place (quantity incremented, priceSnapshot
overwritten) and the loop continues at the same sortOrder and id counter. -/
theorem applyAdd_merge_step (db : DB) (t : String) (line : CartLine)
    (rest : List CartLine) (n i : Nat) (g : Nat → String) (ex : JobItem)
    (hfind : db.items.find? (fun it =>
      it.jobId == t && it.variantId == line.variantId) = some ex) :
    applyAdd db t (line :: rest) n g i =
      applyAdd (updateItemRow db ex.id (ex.quantity + line.quantity)
        line.priceSnapshot) t rest n g i := by
  rw [applyAdd, hfind]

/-- One append step of the add loop: a line with a fresh variantId appends
a row at the running next sortOrder, and the loop continues with both the
sortOrder and the id counter advanced. -/
theorem applyAdd_new_step (db : DB) (t : String) (line : CartLine)
    (rest : List CartLine) (n i : Nat) (g : Nat → String)
    (hfind : db.items.find? (fun it =>
      it.jobId == t && it.variantId == line.variantId) = none) :
    applyAdd db t (line :: rest) n g i =
      applyAdd { db with items := db.items ++
          [{ id := g i, jobId := t, variantId := line.variantId,
             quantity := line.quantity, priceSnapshot := line.priceSnapshot,
             sortOrder := n }] } t rest (n + 1) g (i + 1) := by
  rw [applyAdd, hfind]

/-- A point update never changes the number of item rows. -/
theorem updateItemRow_length (db : DB) (xid : String) (q ps : Int) :
    (updateItemRow db xid q ps).items.length = db.items.length := by
  simp [updateItemRow]

/-- A point update keeps the id column unchanged. -/
theorem updateItemRow_ids (db : DB) (xid : String) (q ps : Int) :
    (updateItemRow db xid q ps).items.map (fun it => it.id) =
      db.items.map (fun it => it.id) := by
  show (db.items.map _).map _ = _
  rw [List.map_map]
  apply List.map_congr_left
  intro r _
  simp only [Function.comp_apply]
  exact updateMapper_id xid q ps r

/-- A point update keeps the (jobId, variantId) column pair unchanged. -/
theorem updateItemRow_pairs (db : DB) (xid : String) (q ps : Int) :
    (updateItemRow db xid q ps).items.map
        (fun it => (it.jobId, it.variantId)) =
      db.items.map (fun it => (it.jobId, it.variantId)) := by
  show (db.items.map _).map _ = _
  rw [List.map_map]
  apply List.map_congr_left
  intro r _
  simp only [Function.comp_apply, Prod.mk.injEq]
  exact ⟨updateMapper_jobId xid q ps r, updateMapper_variantId xid q ps r⟩

/-- A point update never changes the row count of any (jobId, variantId)
pair. -/
theorem updateItemRow_rowCount (db : DB) (xid : String) (q ps : Int)
    (t w : String) :
    (jobVariantRows (updateItemRow db xid q ps).items t w).length =
      (jobVariantRows db.items t w).length := by
  simp only [jobVariantRows, updateItemRow]
  rw [List.filter_map, List.length_map]
  congr 1
  apply List.filter_congr
  intro it _
  simp only [Function.comp_apply]
  rw [updateMapper_jobId, updateMapper_variantId]

/-- Under the unique index JobItem_jobId_variantId_key — no two rows share
a (jobId, variantId) pair — each pair holds at most one row. -/
theorem rowCount_le_one_of_pairsNodup (l : List JobItem)
    (h : (l.map (fun it => (it.jobId, it.variantId))).Nodup) (t w : String) :
    (jobVariantRows l t w).length ≤ 1 := by
  induction l with
  | nil => simp [jobVariantRows]
  | cons a l ih =>
    rw [List.map_cons] at h
    have hh := List.nodup_cons.mp h
    simp only [jobVariantRows, List.filter_cons]
    cases hpa : a.jobId == t && a.variantId == w with
    | false =>
      rw [if_neg (by simp)]
      simpa [jobVariantRows] using ih hh.2
    | true =>
      rw [if_pos rfl]
      have hpa' : a.jobId = t ∧ a.variantId = w := by
        simpa [Bool.and_eq_true, beq_iff_eq] using hpa
      have hfe : l.filter (fun it => it.jobId == t && it.variantId == w)
          = [] := by
        rw [List.filter_eq_nil_iff]
        intro b hb hpb
        have hpb' : b.jobId = t ∧ b.variantId = w := by
          simpa [Bool.and_eq_true, beq_iff_eq] using hpb
        apply hh.1
        simp only [List.mem_map]
        exact ⟨b, hb, by rw [hpb'.1, hpb'.2, hpa'.1, hpa'.2]⟩
      rw [hfe]
      simp

/-- Effect of the merge update on a pair total: only the (jobId, variantId)
pair of the updated row changes, by the quantity delta. -/
theorem quantityTotal_update (l : List JobItem) (t v : String) (ex : JobItem)
    (q ps : Int) (hnd : (l.map (fun it => it.id)).Nodup) (hex : ex ∈ l) :
    quantityTotal (l.map (fun it =>
        if it.id == ex.id then { it with quantity := q, priceSnapshot := ps }
        else it)) t v =
      quantityTotal l t v +
        (if ex.jobId == t && ex.variantId == v then q - ex.quantity
         else 0) := by
  induction l with
  | nil => cases hex
  | cons a l ih =>
    rw [List.map_cons] at hnd
    have hh := List.nodup_cons.mp hnd
    rcases List.mem_cons.mp hex with rfl | hexl
    · have htail : l.map (fun it =>
          if it.id == ex.id then { it with quantity := q, priceSnapshot := ps }
          else it) = l := by
        have hmc : l.map (fun it =>
            if it.id == ex.id then
              { it with quantity := q, priceSnapshot := ps }
            else it) = l.map (fun it => it) := by
          apply List.map_congr_left
          intro r hr
          have hne : (r.id == ex.id) = false := by
            refine beq_eq_false_iff_ne.mpr ?_
            intro he
            apply hh.1
            rw [← he]
            exact List.mem_map_of_mem (fun it => it.id) hr
          simp [hne]
        rw [hmc, List.map_id']
      rw [List.map_cons, htail, if_pos (by simp)]
      simp only [quantityTotal, jobVariantRows, List.filter_cons]
      cases hpa : ex.jobId == t && ex.variantId == v with
      | true =>
        rw [if_pos rfl, if_pos rfl, if_pos rfl]
        simp only [List.map_cons, List.sum_cons]
        omega
      | false =>
        rw [if_neg (by simp), if_neg (by simp), if_neg (by simp)]
        simp
    · have hane : (a.id == ex.id) = false := by
        refine beq_eq_false_iff_ne.mpr ?_
        intro he
        apply hh.1
        rw [he]
        exact List.mem_map_of_mem (fun it => it.id) hexl
      rw [List.map_cons, if_neg (by simp [hane])]
      simp only [quantityTotal, jobVariantRows, List.filter_cons]
      have ihl := ih hh.2 hexl
      simp only [quantityTotal, jobVariantRows] at ihl
      cases hpa : a.jobId == t && a.variantId == v with
      | true =>
        rw [if_pos rfl, if_pos rfl]
        simp only [List.map_cons, List.sum_cons]
        omega
      | false =>
        rw [if_neg (by simp), if_neg (by simp)]
        exact ihl

/-- Over a whole add-mode loop, each (jobId = target, variantId) pair total
grows by exactly the sum of the incoming quantities of that variantId,
lines merging into rows created earlier in the same call included. -/
theorem applyAdd_quantityTotal (t : String) (lines : List CartLine) (db : DB)
    (n i : Nat) (g : Nat → String) (v : String)
    (hnd : (db.items.map (fun it => it.id)).Nodup)
    (hfresh : ∀ m, i ≤ m → m < i + lines.length →
      ∀ r ∈ db.items, r.id ≠ g m)
    (hinj : ∀ m1, i ≤ m1 → m1 < i + lines.length → ∀ m2, i ≤ m2 →
      m2 < i + lines.length → g m1 = g m2 → m1 = m2) :
    quantityTotal (applyAdd db t lines n g i).items t v =
      quantityTotal db.items t v +
        ((linesFor lines v).map (fun l => l.quantity)).sum := by
  induction lines generalizing db n i with
  | nil => simp [applyAdd, linesFor]
  | cons line rest ih =>
    rw [applyAdd]
    cases hfind : db.items.find? (fun it =>
        it.jobId == t && it.variantId == line.variantId) with
    | some ex =>
      dsimp only
      have hexmem : ex ∈ db.items := List.mem_of_find?_eq_some hfind
      have hexp := List.find?_some hfind
      have hexj : ex.jobId = t := by
        simp only [Bool.and_eq_true, beq_iff_eq] at hexp
        exact hexp.1
      have hexv : ex.variantId = line.variantId := by
        simp only [Bool.and_eq_true, beq_iff_eq] at hexp
        exact hexp.2
      have hnd2 : ((updateItemRow db ex.id (ex.quantity + line.quantity)
          line.priceSnapshot).items.map (fun it => it.id)).Nodup := by
        rw [updateItemRow_ids]
        exact hnd
      have hfresh2 : ∀ m, i ≤ m → m < i + rest.length →
          ∀ r ∈ (updateItemRow db ex.id (ex.quantity + line.quantity)
            line.priceSnapshot).items, r.id ≠ g m := by
        intro m him hm r hr
        simp only [updateItemRow, List.mem_map] at hr
        obtain ⟨r0, hr0, rfl⟩ := hr
        rw [updateMapper_id]
        refine hfresh m him ?_ r0 hr0
        simp only [List.length_cons]
        omega
      have hinj2 : ∀ m1, i ≤ m1 → m1 < i + rest.length → ∀ m2, i ≤ m2 →
          m2 < i + rest.length → g m1 = g m2 → m1 = m2 := by
        intro m1 h1 h1b m2 h2 h2b he
        refine hinj m1 h1 ?_ m2 h2 ?_ he <;>
          simp only [List.length_cons] <;> omega
      rw [ih (updateItemRow db ex.id (ex.quantity + line.quantity)
        line.priceSnapshot) n i hnd2 hfresh2 hinj2]
      rw [show quantityTotal (updateItemRow db ex.id
          (ex.quantity + line.quantity) line.priceSnapshot).items t v =
          quantityTotal db.items t v +
            (if ex.jobId == t && ex.variantId == v then
              (ex.quantity + line.quantity) - ex.quantity else 0) from
        quantityTotal_update db.items t v ex (ex.quantity + line.quantity)
          line.priceSnapshot hnd hexmem]
      simp only [linesFor, List.filter_cons]
      cases hv : line.variantId == v with
      | true =>
        have hveq : line.variantId = v := by simpa using hv
        have hcond : (ex.jobId == t && ex.variantId == v) = true := by
          simp [hexj, hexv, hveq]
        rw [if_pos hcond, if_pos rfl]
        simp only [List.map_cons, List.sum_cons]
        omega
      | false =>
        have hcond : (ex.jobId == t && ex.variantId == v) = false := by
          simp [hexv, hv]
        rw [if_neg (by simp [hcond]), if_neg (by simp)]
        omega
    | none =>
      dsimp only
      have hnd2 : (({ db with items := db.items ++
          [{ id := g i, jobId := t, variantId := line.variantId,
             quantity := line.quantity, priceSnapshot := line.priceSnapshot,
             sortOrder := n }] } : DB).items.map (fun it => it.id)).Nodup := by
        simp only [List.map_append, List.map_cons, List.map_nil]
        rw [List.nodup_append]
        refine ⟨hnd, List.nodup_singleton _, ?_⟩
        intro x hx hxs
        simp only [List.mem_singleton] at hxs
        subst hxs
        simp only [List.mem_map] at hx
        obtain ⟨r, hr, hrid⟩ := hx
        refine hfresh i (Nat.le_refl i) ?_ r hr hrid
        simp only [List.length_cons]
        omega
      have hfresh2 : ∀ m, i + 1 ≤ m → m < (i + 1) + rest.length →
          ∀ r ∈ ({ db with items := db.items ++
            [{ id := g i, jobId := t, variantId := line.variantId,
               quantity := line.quantity, priceSnapshot := line.priceSnapshot,
               sortOrder := n }] } : DB).items, r.id ≠ g m := by
        intro m him hm r hr
        simp only [List.mem_append, List.mem_singleton] at hr
        rcases hr with hr | rfl
        · refine hfresh m (Nat.le_of_succ_le him) ?_ r hr
          simp only [List.length_cons]
          omega
        · intro he
          have hieq : i = m := by
            refine hinj i (Nat.le_refl i) ?_ m (Nat.le_of_succ_le him) ?_ he <;>
              simp only [List.length_cons] <;> omega
          omega
      have hinj2 : ∀ m1, i + 1 ≤ m1 → m1 < (i + 1) + rest.length →
          ∀ m2, i + 1 ≤ m2 → m2 < (i + 1) + rest.length →
          g m1 = g m2 → m1 = m2 := by
        intro m1 h1 h1b m2 h2 h2b he
        refine hinj m1 (Nat.le_of_succ_le h1) ?_ m2 (Nat.le_of_succ_le h2)
          ?_ he <;> simp only [List.length_cons] <;> omega
      rw [ih { db with items := db.items ++
          [{ id := g i, jobId := t, variantId := line.variantId,
             quantity := line.quantity, priceSnapshot := line.priceSnapshot,
             sortOrder := n }] } (n + 1) (i + 1) hnd2 hfresh2 hinj2]
      have happend : quantityTotal (db.items ++
          [{ id := g i, jobId := t, variantId := line.variantId,
             quantity := line.quantity, priceSnapshot := line.priceSnapshot,
             sortOrder := n }]) t v =
          quantityTotal db.items t v +
            (if line.variantId == v then line.quantity else 0) := by
        simp only [quantityTotal, jobVariantRows, List.filter_append,
          List.map_append, List.sum_append]
        cases hv : line.variantId == v with
        | true => simp [hv]
        | false => simp [hv]
      rw [show quantityTotal (({ db with items := db.items ++
          [{ id := g i, jobId := t, variantId := line.variantId,
             quantity := line.quantity, priceSnapshot := line.priceSnapshot,
             sortOrder := n }] } : DB)).items t v =
          quantityTotal db.items t v +
            (if line.variantId == v then line.quantity else 0) from happend]
      simp only [linesFor, List.filter_cons]
      cases hv : line.variantId == v with
      | true =>
        rw [if_pos rfl, if_pos rfl]
        simp only [List.map_cons, List.sum_cons]
        omega
      | false =>
        rw [if_neg (by simp), if_neg (by simp)]
        omega

/-- Over a whole add-mode loop on a store satisfying the unique
(jobId, variantId) index, each (target, variantId) pair ends with exactly
one row when the variantId occurs among the incoming lines — merged, never
duplicated — and with its prior row count otherwise. -/
theorem applyAdd_rowCount (t : String) (lines : List CartLine) (db : DB)
    (n i : Nat) (g : Nat → String) (v : String)
    (hpairs : (db.items.map (fun it => (it.jobId, it.variantId))).Nodup) :
    (jobVariantRows (applyAdd db t lines n g i).items t v).length =
      (if v ∈ lines.map (fun l => l.variantId) then 1
       else (jobVariantRows db.items t v).length) := by
  induction lines generalizing db n i with
  | nil => simp [applyAdd]
  | cons line rest ih =>
    rw [applyAdd]
    cases hfind : db.items.find? (fun it =>
        it.jobId == t && it.variantId == line.variantId) with
    | some ex =>
      dsimp only
      have hexmem : ex ∈ db.items := List.mem_of_find?_eq_some hfind
      have hexp := List.find?_some hfind
      have hexj : ex.jobId = t := by
        simp only [Bool.and_eq_true, beq_iff_eq] at hexp
        exact hexp.1
      have hexv : ex.variantId = line.variantId := by
        simp only [Bool.and_eq_true, beq_iff_eq] at hexp
        exact hexp.2
      have hpairs2 : ((updateItemRow db ex.id (ex.quantity + line.quantity)
          line.priceSnapshot).items.map
            (fun it => (it.jobId, it.variantId))).Nodup := by
        rw [updateItemRow_pairs]
        exact hpairs
      rw [ih (updateItemRow db ex.id (ex.quantity + line.quantity)
        line.priceSnapshot) n i hpairs2]
      by_cases hm : v ∈ rest.map (fun l => l.variantId)
      · simp [hm]
      · by_cases hveq : v = line.variantId
        · have hone : (jobVariantRows db.items t v).length = 1 := by
            have hle := rowCount_le_one_of_pairsNodup db.items hpairs t v
            have hmem : ex ∈ jobVariantRows db.items t v := by
              simp only [jobVariantRows, List.mem_filter]
              exact ⟨hexmem, by simp [hexj, hexv, hveq]⟩
            have hpos := List.length_pos.mpr (List.ne_nil_of_mem hmem)
            omega
          rw [updateItemRow_rowCount]
          rw [if_neg hm, hone, if_pos (by simp [hveq])]
        · rw [updateItemRow_rowCount]
          have hnotin : v ∉ (line :: rest).map (fun l => l.variantId) := by
            simp only [List.map_cons, List.mem_cons]
            rintro (h | h)
            · exact hveq h
            · exact hm h
          rw [if_neg hm, if_neg hnotin]
    | none =>
      dsimp only
      have hpairs2 : (({ db with items := db.items ++
          [{ id := g i, jobId := t, variantId := line.variantId,
             quantity := line.quantity, priceSnapshot := line.priceSnapshot,
             sortOrder := n }] } : DB).items.map
            (fun it => (it.jobId, it.variantId))).Nodup := by
        simp only [List.map_append, List.map_cons, List.map_nil]
        rw [List.nodup_append]
        refine ⟨hpairs, List.nodup_singleton _, ?_⟩
        intro p hp hps
        simp only [List.mem_singleton] at hps
        subst hps
        simp only [List.mem_map] at hp
        obtain ⟨r, hr, hpr⟩ := hp
        have hnp := List.find?_eq_none.mp hfind r hr
        apply hnp
        have h1 : r.jobId = t := congrArg Prod.fst hpr
        have h2 : r.variantId = line.variantId := congrArg Prod.snd hpr
        simp [h1, h2]
      rw [ih { db with items := db.items ++
          [{ id := g i, jobId := t, variantId := line.variantId,
             quantity := line.quantity, priceSnapshot := line.priceSnapshot,
             sortOrder := n }] } (n + 1) (i + 1) hpairs2]
      by_cases hm : v ∈ rest.map (fun l => l.variantId)
      · simp [hm]
      · by_cases hveq : v = line.variantId
        · have happ : (jobVariantRows (db.items ++
              [{ id := g i, jobId := t, variantId := line.variantId,
                 quantity := line.quantity,
                 priceSnapshot := line.priceSnapshot,
                 sortOrder := n }]) t v).length =
              (jobVariantRows db.items t v).length + 1 := by
            simp only [jobVariantRows, List.filter_append,
              List.length_append]
            have hv : (line.variantId == v) = true := by simp [hveq]
            simp [hv]
          have hzero : (jobVariantRows db.items t v).length = 0 := by
            simp only [jobVariantRows, List.length_eq_zero,
              List.filter_eq_nil_iff]
            intro r hr hpr
            have hnp := List.find?_eq_none.mp hfind r hr
            apply hnp
            simp only [Bool.and_eq_true, beq_iff_eq] at hpr
            simp [hpr.1, hpr.2, ← hveq]
          rw [if_neg hm, if_pos (by simp [hveq])]
          exact happ.trans (by rw [hzero])
        · have happ : (jobVariantRows (db.items ++
              [{ id := g i, jobId := t, variantId := line.variantId,
                 quantity := line.quantity,
                 priceSnapshot := line.priceSnapshot,
                 sortOrder := n }]) t v).length =
              (jobVariantRows db.items t v).length := by
            simp only [jobVariantRows, List.filter_append,
              List.length_append]
            have hv : (line.variantId == v) = false :=
              beq_eq_false_iff_ne.mpr (fun h => hveq h.symm)
            simp [hv]
          have hnotin : v ∉ (line :: rest).map (fun l => l.variantId) := by
            simp only [List.map_cons, List.mem_cons]
            rintro (h | h)
            · exact hveq h
            · exact hm h
          rw [if_neg hm, if_neg hnotin]
          exact happ

/-- C2: every save-cart call with mode=existingJob and quantityMode=add on
an unlocked target runs the per-line add loop over all normalized incoming
lines from the job's next sortOrder; per line, an existing row for the
variantId (rows created earlier in the same call included) is updated in
place — quantity incremented, priceSnapshot overwritten, no new row — and
a new variantId is appended at the running next sortOrder, which then
advances; consequently over the whole call each (target, variantId) pair's
total quantity grows by exactly the incoming quantities of that variantId
and ends in exactly one row whenever the variantId is incoming; and in
particular a second line of one variantId merges with the first's row at
one sortOrder, two new variantIds land at successive sortOrders, and
adding the same (v9, quantity 3) line twice to an empty job leaves one
row of quantity 6. -/
theorem C2_add_mode_merge (db : DB) (shop customerId : String)
    (payload : SavePayload) (gen : Nat → String) (project : Project)
    (job : Job)
    (hitems : (normalizeItems payload.items).isEmpty = false)
    (hpo : strTrim payload.poNumber ≠ "")
    (hco : strTrim payload.companyName ≠ "")
    (hmode : payload.mode = "existingJob")
    (hqm : (payload.quantityMode == "replace") = false)
    (hpid : payload.projectId ≠ "")
    (hjid : payload.jobId ≠ "")
    (hproj : findProjectAsMember db payload.projectId shop customerId =
      some project)
    (hedit : canEdit db project customerId = true)
    (hjob : findJob db payload.jobId project.id = some job)
    (hlock : jobIsLocked db job = false)
    (hnd : (db.items.map (fun it => it.id)).Nodup)
    (hpairs : (db.items.map (fun it => (it.jobId, it.variantId))).Nodup)
    (hfresh : ∀ m, m < (normalizeItems payload.items).length →
      ∀ r ∈ db.items, r.id ≠ gen m)
    (hinj : ∀ m1, m1 < (normalizeItems payload.items).length →
      ∀ m2, m2 < (normalizeItems payload.items).length →
      gen m1 = gen m2 → m1 = m2) :
    (saveCart db shop customerId payload gen).2.items =
      (applyAdd (setProjectPoCompany db project.id (strTrim payload.poNumber)
          (strTrim payload.companyName)) job.id
        (normalizeItems payload.items) (getNextSortOrder db job.id)
        gen 0).items ∧
    (∀ (db2 : DB) (t : String) (line : CartLine) (rest : List CartLine)
        (n i : Nat) (g : Nat → String) (ex : JobItem),
      db2.items.find? (fun it =>
        it.jobId == t && it.variantId == line.variantId) = some ex →
      applyAdd db2 t (line :: rest) n g i =
        applyAdd (updateItemRow db2 ex.id (ex.quantity + line.quantity)
          line.priceSnapshot) t rest n g i ∧
      (updateItemRow db2 ex.id (ex.quantity + line.quantity)
        line.priceSnapshot).items.length = db2.items.length) ∧
    (∀ (db2 : DB) (t : String) (line : CartLine) (rest : List CartLine)
        (n i : Nat) (g : Nat → String),
      db2.items.find? (fun it =>
        it.jobId == t && it.variantId == line.variantId) = none →
      applyAdd db2 t (line :: rest) n g i =
        applyAdd { db2 with items := db2.items ++
            [{ id := g i, jobId := t, variantId := line.variantId,
               quantity := line.quantity, priceSnapshot := line.priceSnapshot,
               sortOrder := n }] } t rest (n + 1) g (i + 1)) ∧
    (∀ v, quantityTotal (saveCart db shop customerId payload gen).2.items
        job.id v =
      quantityTotal db.items job.id v +
        ((linesFor (normalizeItems payload.items) v).map
          (fun l => l.quantity)).sum) ∧
    (∀ v, (jobVariantRows
        (saveCart db shop customerId payload gen).2.items job.id v).length =
      (if v ∈ (normalizeItems payload.items).map (fun l => l.variantId)
       then 1 else (jobVariantRows db.items job.id v).length)) ∧
    itemsOf (saveCart wDbNoItems "shop1" "editor" wPayloadMerge2 wGen).2
        "jU" =
      [{ id := "new", jobId := "jU", variantId := "v9", quantity := 7,
         priceSnapshot := 30, sortOrder := 1 }] ∧
    itemsOf (saveCart wDb "shop1" "editor" wPayloadTwoNew wGen).2 "jU" =
      [wItemU,
       { id := "new", jobId := "jU", variantId := "v8", quantity := 1,
         priceSnapshot := 5, sortOrder := 2 },
       { id := "newx", jobId := "jU", variantId := "v9", quantity := 2,
         priceSnapshot := 6, sortOrder := 3 }] ∧
    itemsOf (saveCart (saveCart wDbNoItems "shop1" "editor" wPayloadV3
        wGen).2 "shop1" "editor" wPayloadV3 wGen).2 "jU" =
      [{ id := "new", jobId := "jU", variantId := "v9", quantity := 6,
         priceSnapshot := 25, sortOrder := 1 }] := by
  have hpo2 : (strTrim payload.poNumber == "") = false :=
    beq_eq_false_iff_ne.mpr hpo
  have hco2 : (strTrim payload.companyName == "") = false :=
    beq_eq_false_iff_ne.mpr hco
  have hpid2 : (payload.projectId == "") = false :=
    beq_eq_false_iff_ne.mpr hpid
  have hjid2 : (payload.jobId == "") = false := beq_eq_false_iff_ne.mpr hjid
  have hA : (saveCart db shop customerId payload gen).2.items =
      (applyAdd (setProjectPoCompany db project.id (strTrim payload.poNumber)
          (strTrim payload.companyName)) job.id
        (normalizeItems payload.items) (getNextSortOrder db job.id)
        gen 0).items := by
    simp [saveCart, hitems, hpo2, hco2, hmode, hpid2, hjid2, hproj, hedit,
      hjob, hlock, hqm, deleteJobLevelApprovals_items,
      getNextSortOrder_setPoCompany]
  refine ⟨hA, ?_, ?_, ?_, ?_, by decide, by decide, by decide⟩
  · intro db2 t line rest n i g ex hfind
    exact ⟨applyAdd_merge_step db2 t line rest n i g ex hfind,
      updateItemRow_length db2 ex.id (ex.quantity + line.quantity)
        line.priceSnapshot⟩
  · intro db2 t line rest n i g hfind
    exact applyAdd_new_step db2 t line rest n i g hfind
  · intro v
    rw [hA]
    exact applyAdd_quantityTotal job.id (normalizeItems payload.items)
      (setProjectPoCompany db project.id (strTrim payload.poNumber)
        (strTrim payload.companyName)) (getNextSortOrder db job.id) 0 gen v
      hnd (fun m _ hm r hr => hfresh m (by omega) r hr)
      (fun m1 _ h1 m2 _ h2 he => hinj m1 (by omega) m2 (by omega) he)
  · intro v
    rw [hA]
    exact applyAdd_rowCount job.id (normalizeItems payload.items)
      (setProjectPoCompany db project.id (strTrim payload.poNumber)
        (strTrim payload.companyName)) (getNextSortOrder db job.id) 0 gen v
      hpairs

/-- Witness for C2: the reduction conjunct at the concrete fixture call
adding (v9, quantity 3) to the empty unlocked job. -/
theorem C2_add_mode_merge_witness :
    (saveCart wDbNoItems "shop1" "editor" wPayloadV3 wGen).2.items =
      (applyAdd (setProjectPoCompany wDbNoItems "p1"
          (strTrim wPayloadV3.poNumber) (strTrim wPayloadV3.companyName))
        "jU" (normalizeItems wPayloadV3.items)
        (getNextSortOrder wDbNoItems "jU") wGen 0).items :=
  (C2_add_mode_merge wDbNoItems "shop1" "editor" wPayloadV3 wGen wProject
    wJobU (by decide) (by decide) (by decide) (by decide) (by decide)
    (by decide) (by decide) (by decide) (by decide) (by decide) (by decide)
    (by decide) (by decide) (by decide) (by decide)).1

end ProjectClad



